import Mathlib

/-!
# SSD1306 OLED driver over a polled I2C peripheral

A shallow embedding of `src/i2c/src/ssd1306_driver.c`, `src/i2c/src/i2c_driver.c` and the
delay functions of `src/i2c/src/timer.c`.

* The C globals (`SSD1306_Buffer`, `SSD1306`, `lastImg`) and the peripheral `I2C1`
  are the fields of one record, `Machine`, passed through every function.
* Machine integers are natural numbers; a store into a `uint8_t`/`uint16_t` object is
  written `% 256` / `% 65536`, a conversion of a call argument to `uint8_t` is written
  `% 256` at the call.
* The status registers of the peripheral are volatile: the value of the `n`-th read of
  `SR1` (`SR2`) is `SR1 n` (`SR2 n`), an arbitrary stream.  Writes to `CR1` (start, stop)
  and to `DR` are recorded in order in `wire`.
* The counter of the timer `TIM2` is volatile in the same way: the `n`-th read of `CNT`
  returns `CNT n`.
* A `while` loop without a bound in the source takes a `fuel` argument, the number of
  polls after which the model gives up with `none`.
-/

namespace SSD1306

/-! ## Configuration constants (`ssd1306_driver.c`, lines 11-28) -/

def SSD1306_I2C_ADDR : Nat := 0x78
def SSD1306_WIDTH : Nat := 128
def SSD1306_HEIGHT : Nat := 64
def SSD1306_WRITE_COMMAND : Nat := 0x00
def SSD1306_WRITE_DATA : Nat := 0x40
def I2C_MEMADD_SIZE_8BIT : Nat := 0x00000001
def IMG_STEP_X : Nat := 5
def TIMEOUT_MS : Nat := 100000

/-- Macro `I2C_MEM_ADD_MSB`: the high byte of a 16-bit memory address. -/
def I2C_MEM_ADD_MSB (address : Nat) : Nat := (((address &&& 0xFF00) % 65536) >>> 8) % 256

/-- Macro `I2C_MEM_ADD_LSB`: the low byte of a 16-bit memory address. -/
def I2C_MEM_ADD_LSB (address : Nat) : Nat := ((address &&& 0x00FF) % 65536) % 256

/-! ## Data model (`ssd1306_driver.h`, `ssd1306_fonts.h`, `ssd1306_imgs.h`) -/

/-- The enum `SSD1306_COLOR`. -/
inductive SSD1306_COLOR where
  | BLACK
  | WHITE
  deriving DecidableEq, Repr

open SSD1306_COLOR

/-- The C expression `!color`, converted back to `SSD1306_COLOR`. -/
def SSD1306_COLOR.not : SSD1306_COLOR → SSD1306_COLOR
  | BLACK => WHITE
  | WHITE => BLACK

/-- The struct `FontDef`. The `data` pointer is the memory it points into: `data k` is the
16-bit word at offset `k` (the offset `(ch - 32) * FontHeight + i` is negative for `ch < 32`). -/
structure FontDef where
  FontWidth : Nat
  FontHeight : Nat
  data : Int → Nat

/-- The struct `ImgDef`; `data k` is the 16-bit word at offset `k`. -/
structure ImgDef where
  imgWidth : Nat
  imgHeight : Nat
  data : Nat → Nat
  imgSections : Nat

/-- The struct `SSD1306_t`: cursor, origin of the current run, wrap counter. -/
structure SSD1306_t where
  xpos : Nat
  ypos : Nat
  xpos_init : Nat
  ypos_init : Nat
  wrap_counter : Nat
  deriving DecidableEq, Repr

/-- What the driver does to the bus, in program order: setting the START bit of `CR1`,
setting the STOP bit of `CR1`, writing a value to `DR`. -/
inductive BusEvent where
  | START
  | STOP
  | DR (v : Nat)
  deriving DecidableEq, Repr

/-- The peripheral `I2C1` as the driver sees it. -/
structure I2C_TypeDef where
  SR1 : Nat → Nat
  SR2 : Nat → Nat
  sr1_reads : Nat
  sr2_reads : Nat
  wire : List BusEvent

/-- The timer `TIM2` as `Delay_us` sees it (`timer.c`): `CNT n` is the value of the `n`-th
read of the volatile counter register, `resets` counts the writes `TIM2->CNT = 0`. -/
structure TIM_TypeDef where
  CNT : Nat → Nat
  cnt_reads : Nat
  resets : Nat

/-- The driver's globals and the peripherals. -/
structure Machine where
  SSD1306_Buffer : List Nat
  SSD1306 : SSD1306_t
  lastImg : ImgDef
  I2C1 : I2C_TypeDef
  TIM2 : TIM_TypeDef

/-! ## Framebuffer primitives -/

/-- Function `SSD1306_fill` (lines 287-292): the loop `for i < sizeof(SSD1306_Buffer)` stores the
fill byte at every index `0 .. 1023`. -/
def SSD1306_fill (color : SSD1306_COLOR) (m : Machine) : Machine :=
  let buf := (List.range ((SSD1306_WIDTH * SSD1306_HEIGHT) / 8)).foldl
    (fun (buf : List Nat) (i : Nat) => buf.set i (if color = BLACK then 0x00 else 0xFF))
    m.SSD1306_Buffer
  { m with SSD1306_Buffer := buf }

/-- Function `SSD1306_setCursor` (lines 301-308); the parameters are `uint8_t`. -/
def SSD1306_setCursor (x y : Nat) (m : Machine) : Machine :=
  { m with SSD1306 := { m.SSD1306 with xpos := x, ypos := y, xpos_init := x, ypos_init := y } }

/-- Function `SSD1306_draw_pixel` (lines 348-363). The parameters `x`, `y` are `uint8_t`: callers
convert. `~(1 << k)` is the complement of a 32-bit `int`; the result of `|=` / `&=` is
stored into a `uint8_t`. -/
def SSD1306_draw_pixel (x y : Nat) (color : SSD1306_COLOR) (m : Machine) : Machine :=
  if x ≥ SSD1306_WIDTH ∨ y ≥ SSD1306_HEIGHT then m
  else
    let idx := x + (y / 8) * SSD1306_WIDTH
    let old := m.SSD1306_Buffer.getD idx 0
    if color = WHITE then
      { m with SSD1306_Buffer := m.SSD1306_Buffer.set idx ((old ||| (1 <<< (y % 8))) % 256) }
    else
      { m with SSD1306_Buffer :=
          m.SSD1306_Buffer.set idx ((old &&& (0xFFFFFFFF - (1 <<< (y % 8)))) % 256) }

/-! ## Text rendering -/

/-- The inner loop of the glyph and sprite blits (lines 398-404 and 471-477): for
`j < width`, test `(pixel << j) & 0x8000` in 32-bit arithmetic and draw the pixel at
`(x + j, y)`, both coordinates converted to `uint8_t`, in `color` or in `!color`.
A shift by 16 or more leaves bit 15 clear (for 32 and more, where C leaves the shift
undefined, this is what the target's shift instruction gives). -/
def blitRow (pixel x y width : Nat) (color : SSD1306_COLOR) (m : Machine) : Machine :=
  (List.range width).foldl
    (fun (m : Machine) (j : Nat) =>
      if ((pixel <<< j) % 4294967296) &&& 0x8000 ≠ 0 then
        SSD1306_draw_pixel ((x + j) % 256) (y % 256) color m
      else
        SSD1306_draw_pixel ((x + j) % 256) (y % 256) color.not m) m

/-- The glyph loop of `SSD1306_write_char` (lines 396-405): row `i` of character `ch` is
`Font.data[(ch - 32) * FontHeight + i]`, a `uint16_t`. -/
def blitGlyph (ch : Nat) (Font : FontDef) (color : SSD1306_COLOR) (m : Machine) : Machine :=
  (List.range Font.FontHeight).foldl
    (fun (m : Machine) (i : Nat) =>
      blitRow (Font.data (((ch : Int) - 32) * Font.FontHeight + i) % 65536)
        m.SSD1306.xpos (m.SSD1306.ypos + i) Font.FontWidth color m) m

/-- The space check of `SSD1306_write_char` (lines 378-393). `none` is the path that
returns the sentinel `1`; `some m'` is the machine with which the blit goes on, moved to
the next line when the width check failed and `wrap` is set. -/
def write_char_check (Font : FontDef) (wrap : Nat) (m : Machine) : Option Machine :=
  if SSD1306_WIDTH ≤ m.SSD1306.xpos + Font.FontWidth ∨
     SSD1306_HEIGHT ≤ m.SSD1306.ypos + Font.FontHeight then
    if wrap ≠ 0 then
      if SSD1306_WIDTH ≤ m.SSD1306.xpos + Font.FontWidth then
        some { m with SSD1306 :=
          { m.SSD1306 with
            xpos := m.SSD1306.xpos_init
            ypos := ((m.SSD1306.ypos_init + Font.FontHeight) * m.SSD1306.wrap_counter) % 65536
            wrap_counter := (m.SSD1306.wrap_counter + 1) % 256 } }
      else if SSD1306_HEIGHT ≤ m.SSD1306.ypos + Font.FontHeight then
        none
      else some m
    else none
  else some m

/-- Function `SSD1306_write_char` (lines 373-412): the returned `char` and the machine afterwards. -/
def SSD1306_write_char (ch : Nat) (Font : FontDef) (color : SSD1306_COLOR) (wrap : Nat)
    (m : Machine) : Nat × Machine :=
  match write_char_check Font wrap m with
  | none => (1, m)
  | some m1 =>
    let m2 := blitGlyph ch Font color m1
    (ch, { m2 with SSD1306 :=
      { m2.SSD1306 with xpos := (m2.SSD1306.xpos + Font.FontWidth) % 65536 } })

/-- The `while (*str)` loop of `SSD1306_writeString` (lines 430-440). `str` is the
sequence of `char` values the pointer walks over; the end of the list or a `0` is the
terminator. The test is the source's `!(SSD1306_write_char(..) != *str)`. -/
def writeString_loop (Font : FontDef) (color : SSD1306_COLOR) (wrap : Nat) :
    List Nat → Machine → Nat × Machine
  | [], m => (0, m)
  | c :: rest, m =>
    if c = 0 then (0, m)
    else
      let r := SSD1306_write_char c Font color wrap m
      if ¬ (r.1 ≠ c) then (c, r.2)
      else writeString_loop Font color wrap rest r.2

/-- Function `SSD1306_writeString` (lines 422-441). -/
def SSD1306_writeString (str : List Nat) (Font : FontDef) (color : SSD1306_COLOR)
    (wrap : Nat) (m : Machine) : Nat × Machine :=
  writeString_loop Font color wrap str
    { m with SSD1306 :=
      { m.SSD1306 with
        xpos_init := m.SSD1306.xpos
        ypos_init := m.SSD1306.ypos
        wrap_counter := 1 } }

/-! ## Sprite rendering -/

/-- One pass of the section loop of `SSD1306_writeImg` (lines 468-481): blit section
`imgSection` at the cursor, then `xpos += imgWidth`. -/
def blitSection (Img : ImgDef) (color : SSD1306_COLOR) (m : Machine) (imgSection : Nat) :
    Machine :=
  let m1 := (List.range Img.imgHeight).foldl
    (fun (m : Machine) (i : Nat) =>
      blitRow (Img.data (i + imgSection * Img.imgHeight) % 65536)
        m.SSD1306.xpos (m.SSD1306.ypos + i) Img.imgWidth color m) m
  { m1 with SSD1306 := { m1.SSD1306 with xpos := (m1.SSD1306.xpos + Img.imgWidth) % 65536 } }

/-- Function `SSD1306_writeImg` (lines 449-483). -/
def SSD1306_writeImg (Img : ImgDef) (color : SSD1306_COLOR) (m : Machine) : Machine :=
  let m1 : Machine :=
    { m with
      SSD1306 := { m.SSD1306 with xpos_init := m.SSD1306.xpos, ypos_init := m.SSD1306.ypos }
      lastImg := Img }
  if SSD1306_WIDTH ≤ m1.SSD1306.xpos + Img.imgWidth ∨
     SSD1306_HEIGHT ≤ m1.SSD1306.ypos + Img.imgHeight then m1
  else (List.range Img.imgSections).foldl (blitSection Img color) m1

/-! ## I2C driver (`i2c_driver.c`) -/

/-- One read of the volatile register `SR1`. -/
def I2C_TypeDef.readSR1 (h : I2C_TypeDef) : Nat × I2C_TypeDef :=
  (h.SR1 h.sr1_reads, { h with sr1_reads := h.sr1_reads + 1 })

/-- One read of the volatile register `SR2`. -/
def I2C_TypeDef.readSR2 (h : I2C_TypeDef) : Nat × I2C_TypeDef :=
  (h.SR2 h.sr2_reads, { h with sr2_reads := h.sr2_reads + 1 })

/-- A write to `CR1` (start, stop) or `DR`, appended to the wire log. -/
def I2C_TypeDef.emit (e : BusEvent) (h : I2C_TypeDef) : I2C_TypeDef :=
  { h with wire := h.wire ++ [e] }

/-- The unbounded wait `while (!(I2C1->SR1 & (1u << bit)));`, at most `fuel` polls. -/
def waitSR1 (bit : Nat) : Nat → I2C_TypeDef → Option I2C_TypeDef
  | 0, _ => none
  | fuel + 1, h =>
    if h.readSR1.1 &&& (1 <<< bit) ≠ 0 then some h.readSR1.2
    else waitSR1 bit fuel h.readSR1.2

/-- The unbounded wait `while (!(I2C1->SR2 & (1u << bit)));`, at most `fuel` polls. -/
def waitSR2 (bit : Nat) : Nat → I2C_TypeDef → Option I2C_TypeDef
  | 0, _ => none
  | fuel + 1, h =>
    if h.readSR2.1 &&& (1 <<< bit) ≠ 0 then some h.readSR2.2
    else waitSR2 bit fuel h.readSR2.2

/-- The bounded poll
`while (!(I2C1->SR1 & (1u << bit))) { if (counter >= timeout) return 1; counter++; }`
started with the given `counter`: `0` when the loop is left by its condition, `1` when it
is left by `return 1`. -/
def pollSR1 (bit timeout counter : Nat) (h : I2C_TypeDef) : Nat × I2C_TypeDef :=
  if h.readSR1.1 &&& (1 <<< bit) ≠ 0 then (0, h.readSR1.2)
  else if counter ≥ timeout then (1, h.readSR1.2)
  else pollSR1 bit timeout (counter + 1) h.readSR1.2
termination_by timeout - counter
decreasing_by omega

/-- Function `I2C_start` (lines 68-76). -/
def I2C_start (fuel : Nat) (h : I2C_TypeDef) : Option I2C_TypeDef :=
  waitSR1 0 fuel (h.emit BusEvent.START)

/-- Function `I2C_stop` (lines 81-85). -/
def I2C_stop (h : I2C_TypeDef) : I2C_TypeDef :=
  h.emit BusEvent.STOP

/-- Function `I2C_writeSlaveAddress` (lines 93-112); after the loop `SR1` and `SR2` are read once
each to clear ADDR. -/
def I2C_writeSlaveAddress (address timeout : Nat) (h : I2C_TypeDef) : Nat × I2C_TypeDef :=
  let r := pollSR1 1 timeout 0 (h.emit (BusEvent.DR address))
  if r.1 ≠ 0 then (1, r.2)
  else (0, r.2.readSR1.2.readSR2.2)

/-- Function `I2C_write` (lines 120-141). -/
def I2C_write (fuel data timeout : Nat) (h : I2C_TypeDef) : Option (Nat × I2C_TypeDef) :=
  match waitSR1 7 fuel h with
  | none => none
  | some h1 =>
    let r := pollSR1 2 timeout 0 (h1.emit (BusEvent.DR data))
    if r.1 ≠ 0 then some (1, r.2) else some (0, r.2)

/-- The loop `while (size) { wait TXE; DR = *data++; size--; }` of `I2C_writeMulti`;
`data` is the memory from the pointer on. -/
def writeMulti_loop (fuel : Nat) : Nat → List Nat → I2C_TypeDef → Option I2C_TypeDef
  | 0, _, h => some h
  | size + 1, data, h =>
    match waitSR1 7 fuel h with
    | none => none
    | some h1 => writeMulti_loop fuel size data.tail (h1.emit (BusEvent.DR (data.headD 0)))

/-- Function `I2C_writeMulti` (lines 150-174). -/
def I2C_writeMulti (fuel : Nat) (data : List Nat) (size timeout : Nat) (h : I2C_TypeDef) :
    Option (Nat × I2C_TypeDef) :=
  match waitSR1 7 fuel h with
  | none => none
  | some h1 =>
    match writeMulti_loop fuel size data h1 with
    | none => none
    | some h2 =>
      let r := pollSR1 2 timeout 0 h2
      if r.1 ≠ 0 then some (1, r.2) else some (0, r.2)

/-! ## Timer delays (`timer.c`) -/

/-- The wait `while (TIM2->CNT < us);` of `Delay_us`, at most `fuel` reads. -/
def waitCNT (us : Nat) : Nat → TIM_TypeDef → Option TIM_TypeDef
  | 0, _ => none
  | fuel + 1, t =>
    if t.CNT t.cnt_reads < us then waitCNT us fuel { t with cnt_reads := t.cnt_reads + 1 }
    else some { t with cnt_reads := t.cnt_reads + 1 }

/-- Function `Delay_us` (`timer.c`, lines 113-121); `us` is a `uint16_t`. -/
def Delay_us (fuel us : Nat) (t : TIM_TypeDef) : Option TIM_TypeDef :=
  waitCNT us fuel { t with resets := t.resets + 1 }

/-- Function `Delay_ms` (`timer.c`, lines 127-132): `ms` passes of the loop, each one
`Delay_us(1000)`. -/
def Delay_ms (fuel : Nat) : Nat → TIM_TypeDef → Option TIM_TypeDef
  | 0, t => some t
  | ms + 1, t =>
    match Delay_us fuel 1000 t with
    | none => none
    | some t1 => Delay_ms fuel ms t1

/-! ## Bus transactions of the display driver -/

/-- The memory-address phase shared by `SSD1306_write` and `SSD1306_writeMulti`
(lines 169-182 and 225-238). -/
def sendMemAddress (fuel memAddress memSize : Nat) (h : I2C_TypeDef) : Option I2C_TypeDef :=
  if memSize = I2C_MEMADD_SIZE_8BIT then
    some (h.emit (BusEvent.DR (I2C_MEM_ADD_LSB memAddress)))
  else
    match waitSR1 7 fuel (h.emit (BusEvent.DR (I2C_MEM_ADD_MSB memAddress))) with
    | none => none
    | some h1 => some (h1.emit (BusEvent.DR (I2C_MEM_ADD_LSB memAddress)))

/-- The part of `SSD1306_write` / `SSD1306_writeMulti` before the payload (lines 155-185
and 211-241): start, wait for BUSY in `SR2`, address, wait TXE, memory address, wait TXE.
`some (1, h)` is the early `return rv` after a failed address phase. -/
def beginTransfer (fuel memAddress memSize : Nat) (h : I2C_TypeDef) :
    Option (Nat × I2C_TypeDef) :=
  match I2C_start fuel h with
  | none => none
  | some h1 =>
    match waitSR2 1 fuel h1 with
    | none => none
    | some h2 =>
      let r := I2C_writeSlaveAddress SSD1306_I2C_ADDR TIMEOUT_MS h2
      if r.1 ≠ 0 then some r
      else
        match waitSR1 7 fuel r.2 with
        | none => none
        | some h3 =>
          match sendMemAddress fuel memAddress memSize h3 with
          | none => none
          | some h4 =>
            match waitSR1 7 fuel h4 with
            | none => none
            | some h5 => some (0, h5)

/-- Function `SSD1306_write` (lines 151-196). -/
def SSD1306_write (fuel data memAddress memSize : Nat) (h : I2C_TypeDef) :
    Option (Nat × I2C_TypeDef) :=
  match beginTransfer fuel memAddress memSize h with
  | none => none
  | some r =>
    if r.1 ≠ 0 then some r
    else
      match I2C_write fuel data TIMEOUT_MS r.2 with
      | none => none
      | some r2 => if r2.1 ≠ 0 then some r2 else some (r2.1, I2C_stop r2.2)

/-- Function `SSD1306_writeMulti` (lines 207-252); `size` is a `uint8_t`. -/
def SSD1306_writeMulti (fuel : Nat) (data : List Nat) (size memAddress memSize : Nat)
    (h : I2C_TypeDef) : Option (Nat × I2C_TypeDef) :=
  match beginTransfer fuel memAddress memSize h with
  | none => none
  | some r =>
    if r.1 ≠ 0 then some r
    else
      match I2C_writeMulti fuel data size TIMEOUT_MS r.2 with
      | none => none
      | some r2 => if r2.1 ≠ 0 then some r2 else some (r2.1, I2C_stop r2.2)

/-- The body of the page loop of `SSD1306_update` (lines 266-278) for page `i`, with the
8-bit accumulator `rv`. -/
def update_page (fuel : Nat) (buf : List Nat) (acc : Nat × I2C_TypeDef) (i : Nat) :
    Option (Nat × I2C_TypeDef) :=
  match SSD1306_write fuel ((0xB0 + i) % 256) SSD1306_WRITE_COMMAND 1 acc.2 with
  | none => none
  | some r1 =>
    match SSD1306_write fuel 0x00 SSD1306_WRITE_COMMAND 1 r1.2 with
    | none => none
    | some r2 =>
      match SSD1306_write fuel 0x10 SSD1306_WRITE_COMMAND 1 r2.2 with
      | none => none
      | some r3 =>
        match SSD1306_writeMulti fuel (buf.drop (SSD1306_WIDTH * i)) (SSD1306_WIDTH % 256)
            SSD1306_WRITE_DATA 1 r3.2 with
        | none => none
        | some r4 =>
          some (((((acc.1 + r1.1) % 256 + r2.1) % 256 + r3.1) % 256 + r4.1) % 256, r4.2)

/-- Function `SSD1306_update` (lines 262-281): the returned `rv` and the machine afterwards. -/
def SSD1306_update (fuel : Nat) (m : Machine) : Option (Nat × Machine) :=
  match (List.range 8).foldlM (update_page fuel m.SSD1306_Buffer) (0, m.I2C1) with
  | none => none
  | some r => some (r.1, { m with I2C1 := r.2 })

/-- The arguments of the 28 calls `rv += SSD1306_write(.., SSD1306_WRITE_COMMAND, 1)` of
`SSD1306_init` in source order (lines 59-120), each converted to the `uint8_t` parameter. -/
def initCommands : List Nat :=
  [0xAE, 0x20, 0x10, 0xB0, 0x00, 0x10, 0xC8, 0x40, 0x81, 0xFF, 0xA1, 0xA6, 0xA8,
   (SSD1306_HEIGHT - 1) % 256, 0xA4, 0xD3, 0x00, 0xD5, 0xF0, 0xD9, 0x22, 0xDA,
   ((0 <<< 5) ||| (1 <<< 4) ||| 0x02) % 256, 0xDB, 0x20, 0x8D, 0x14, 0xAF]

/-- One statement `rv += SSD1306_write(data, SSD1306_WRITE_COMMAND, 1);` of `SSD1306_init`,
with the 8-bit accumulator `rv`. -/
def init_write (fuel : Nat) (acc : Nat × I2C_TypeDef) (data : Nat) :
    Option (Nat × I2C_TypeDef) :=
  match SSD1306_write fuel data SSD1306_WRITE_COMMAND 1 acc.2 with
  | none => none
  | some r => some ((acc.1 + r.1) % 256, r.2)

/-- Function `SSD1306_init` (lines 47-141): the returned value and the machine afterwards. -/
def SSD1306_init (fuel : Nat) (m : Machine) : Option (Nat × Machine) :=
  match Delay_ms fuel 100 m.TIM2 with
  | none => none
  | some t =>
    match initCommands.foldlM (init_write fuel) (0, m.I2C1) with
    | none => none
    | some r =>
      let m1 : Machine := { m with I2C1 := r.2, TIM2 := t }
      if r.1 ≠ 0 then some (1, m1)
      else
        match SSD1306_update fuel (SSD1306_fill BLACK m1) with
        | none => none
        | some u =>
          if (r.1 + u.1) % 256 ≠ 0 then some (1, u.2)
          else some (0, { u.2 with SSD1306 := { u.2.SSD1306 with xpos := 0, ypos := 0 } })

/-! ## Animation callbacks -/

/-- Function `SSD1306_moveImageRight` (lines 314-324); `xpos` is a `uint16_t`, the result of
`SSD1306_update` is discarded. -/
def SSD1306_moveImageRight (fuel : Nat) (m : Machine) : Option Machine :=
  let m1 : Machine :=
    { m with SSD1306 := { m.SSD1306 with xpos := (m.SSD1306.xpos_init + IMG_STEP_X) % 65536 } }
  let m2 : Machine :=
    if m1.SSD1306.xpos ≥ SSD1306_WIDTH then
      { m1 with SSD1306 := { m1.SSD1306 with xpos := SSD1306_WIDTH - IMG_STEP_X } }
    else m1
  let m3 := SSD1306_fill BLACK m2
  let m4 := SSD1306_writeImg m3.lastImg WHITE m3
  (SSD1306_update fuel m4).map Prod.snd

/-- Function `SSD1306_moveImageLeft` (lines 330-340); `xpos_init - IMG_STEP_X` is computed in
`unsigned int` and stored into the `uint16_t` field `xpos`. -/
def SSD1306_moveImageLeft (fuel : Nat) (m : Machine) : Option Machine :=
  let m1 : Machine :=
    { m with SSD1306 :=
      { m.SSD1306 with
        xpos := (((m.SSD1306.xpos_init : Int) - (IMG_STEP_X : Int)) % 65536).toNat } }
  let m2 : Machine :=
    if m1.SSD1306.xpos ≤ 0 ∨ m1.SSD1306.xpos ≥ SSD1306_WIDTH then
      { m1 with SSD1306 := { m1.SSD1306 with xpos := 0 + IMG_STEP_X } }
    else m1
  let m3 := SSD1306_fill BLACK m2
  let m4 := SSD1306_writeImg m3.lastImg WHITE m3
  (SSD1306_update fuel m4).map Prod.snd

/-! ## Observations and concrete inputs -/

/-- Pixel `(x, y)` of a framebuffer as the data model addresses it: bit `y % 8` of the
byte at index `x + (y / 8) * W`. The source has no pixel read; this is the inverse of the
addressing of `SSD1306_draw_pixel`. -/
def pixelAt (buf : List Nat) (x y : Nat) : Bool :=
  (buf.getD (x + (y / 8) * SSD1306_WIDTH) 0).testBit (y % 8)

/-- Every status flag the driver polls is set at every read: SB, ADDR, BTF and TXE
(bits 0, 1, 2 and 7 of `SR1`) and bit 1 of `SR2`. -/
def BusReady (h : I2C_TypeDef) : Prop :=
  (∀ n, h.SR1 n &&& (1 <<< 0) ≠ 0 ∧ h.SR1 n &&& (1 <<< 1) ≠ 0 ∧
        h.SR1 n &&& (1 <<< 2) ≠ 0 ∧ h.SR1 n &&& (1 <<< 7) ≠ 0) ∧
  (∀ n, h.SR2 n &&& (1 <<< 1) ≠ 0)

/-- The peripheral went from `h` to `h2` with the same register streams, the driver
having put exactly the events `evs` on the wire. -/
def Steps (h h2 : I2C_TypeDef) (evs : List BusEvent) : Prop :=
  h2.SR1 = h.SR1 ∧ h2.SR2 = h.SR2 ∧ h2.wire = h.wire ++ evs

/-- One write transaction as it is seen on the wire (section 6 of the specification):
start, address byte, control byte, payload bytes, stop. -/
structure Transaction where
  address : Nat
  control : Nat
  payload : List Nat
  deriving DecidableEq, Repr

/-- The bus events of one complete write transaction. -/
def Transaction.events (t : Transaction) : List BusEvent :=
  [BusEvent.START, BusEvent.DR t.address, BusEvent.DR t.control]
    ++ t.payload.map BusEvent.DR ++ [BusEvent.STOP]

/-- The four transactions a flush is expected to issue for page `p` of the framebuffer
`buf`: three command writes carrying `0xB0 + p`, `0x00`, `0x10`, then one data burst with
the bytes at indices `128 * p .. 128 * p + 127`. -/
def pageTransactions (buf : List Nat) (p : Nat) : List Transaction :=
  [ { address := 0x78, control := 0x00, payload := [0xB0 + p] },
    { address := 0x78, control := 0x00, payload := [0x00] },
    { address := 0x78, control := 0x00, payload := [0x10] },
    { address := 0x78, control := 0x40,
      payload := (List.range 128).map (fun k => buf.getD (128 * p + k) 0) } ]

/-- The transactions a flush of `buf` is expected to issue: those of pages 0 to 7. -/
def flushTransactions (buf : List Nat) : List Transaction :=
  (List.range 8).flatMap (pageTransactions buf)

/-- The data bytes carried by the data bursts (control byte `0x40`) among `ts`. -/
def dataBytes (ts : List Transaction) : List Nat :=
  (ts.filter (fun t => t.control = 0x40)).flatMap (fun t => t.payload)

/-- One call on the bus as the callers see it: it may not return (`none`), or it returns
a value and leaves the peripheral in a new state. -/
abbrev BusOp := I2C_TypeDef → Option (Nat × I2C_TypeDef)

/-- The return values of a sequence of bus calls made one after the other, and the
peripheral after the last one. -/
def runOps : List BusOp → I2C_TypeDef → Option (List Nat × I2C_TypeDef)
  | [], h => some ([], h)
  | op :: ops, h =>
    match op h with
    | none => none
    | some r =>
      match runOps ops r.2 with
      | none => none
      | some rs => some (r.1 :: rs.1, rs.2)

/-- The four bus writes of `SSD1306_update` for page `i` (lines 268-277). -/
def pageOps (fuel : Nat) (buf : List Nat) (i : Nat) : List BusOp :=
  [ SSD1306_write fuel ((0xB0 + i) % 256) SSD1306_WRITE_COMMAND 1,
    SSD1306_write fuel 0x00 SSD1306_WRITE_COMMAND 1,
    SSD1306_write fuel 0x10 SSD1306_WRITE_COMMAND 1,
    SSD1306_writeMulti fuel (buf.drop (SSD1306_WIDTH * i)) (SSD1306_WIDTH % 256)
      SSD1306_WRITE_DATA 1 ]

/-- The 32 bus writes of `SSD1306_update` in program order. -/
def flushOps (fuel : Nat) (buf : List Nat) : List BusOp :=
  (List.range 8).flatMap (pageOps fuel buf)

/-- The 28 command writes of `SSD1306_init` in program order. -/
def initOps (fuel : Nat) : List BusOp :=
  initCommands.map (fun c => SSD1306_write fuel c SSD1306_WRITE_COMMAND 1)

/-- The 28 command transactions `SSD1306_init` is expected to issue, with the command
bytes as the specification lists them (section 4.2). -/
def initTransactions : List Transaction :=
  [0xAE, 0x20, 0x10, 0xB0, 0x00, 0x10, 0xC8, 0x40, 0x81, 0xFF, 0xA1, 0xA6, 0xA8, 0x3F,
   0xA4, 0xD3, 0x00, 0xD5, 0xF0, 0xD9, 0x22, 0xDA, 0x12, 0xDB, 0x20, 0x8D, 0x14, 0xAF].map
    (fun c => { address := 0x78, control := 0x00, payload := [c] })

/-- The flag `1 << bit` is set in the value the `k`-th next read of `SR1` returns. -/
def flagAt (h : I2C_TypeDef) (bit k : Nat) : Prop :=
  h.SR1 (h.sr1_reads + k) &&& (1 <<< bit) ≠ 0

/-- The timer reaches 1000 counts within `fuel` reads, from whatever read on. -/
def TimerTicks (fuel : Nat) (t : TIM_TypeDef) : Prop :=
  ∀ n, ∃ k, k < fuel ∧ 1000 ≤ t.CNT (n + k)

/-- No device acknowledges its address: SB and TXE are set at every read of `SR1` and
bit 1 of `SR2` is set, but ADDR never is. -/
def NoAck (h : I2C_TypeDef) : Prop :=
  (∀ n, h.SR1 n &&& (1 <<< 0) ≠ 0 ∧ h.SR1 n &&& (1 <<< 7) ≠ 0 ∧
        h.SR1 n &&& (1 <<< 1) = 0) ∧
  (∀ n, h.SR2 n &&& (1 <<< 1) ≠ 0)

/-- A timer that shows 1000 counts at every read. -/
def runningTimer : TIM_TypeDef :=
  { CNT := fun _ => 1000, cnt_reads := 0, resets := 0 }

/-- A peripheral on which every status flag the driver polls is set at every read. -/
def readyBus : I2C_TypeDef :=
  { SR1 := fun _ => 0x87, SR2 := fun _ => 0x02, sr1_reads := 0, sr2_reads := 0, wire := [] }

/-- A sprite of one 2x2 section, both rows `0x8000`. -/
def dotImg : ImgDef :=
  { imgWidth := 2, imgHeight := 2, data := fun _ => 0x8000, imgSections := 1 }

/-- A sprite of two sections, each 16 wide and 2 high, all pixels set. -/
def pairImg : ImgDef :=
  { imgWidth := 16, imgHeight := 2, data := fun _ => 0xFFFF, imgSections := 2 }

/-- A sprite of 17 sections, each 16 wide and 1 high: the row of section 0 has all
pixels set, the rows of the other sections have none. -/
def stripImg : ImgDef :=
  { imgWidth := 16, imgHeight := 1, data := fun k => if k = 0 then 0xFFFF else 0x0000,
    imgSections := 17 }

/-- A font of 7x10 cells in which every glyph has all pixels set. -/
def solidFont : FontDef :=
  { FontWidth := 7, FontHeight := 10, data := fun _ => 0xFFFF }

/-- The machine after reset with a cleared 1024-byte framebuffer: cursor at the origin,
wrap counter 0, no sprite drawn yet. -/
def machine0 : Machine :=
  { SSD1306_Buffer := List.replicate 1024 0
    SSD1306 := { xpos := 0, ypos := 0, xpos_init := 0, ypos_init := 0, wrap_counter := 0 }
    lastImg := { imgWidth := 0, imgHeight := 0, data := fun _ => 0, imgSections := 0 }
    I2C1 := readyBus
    TIM2 := runningTimer }

/-- A bus without a device: SB, BTF and TXE read as set, ADDR never. -/
def noAckBus : I2C_TypeDef :=
  { SR1 := fun _ => 0x85, SR2 := fun _ => 0x02, sr1_reads := 0, sr2_reads := 0, wire := [] }

/-- The machine `machine0` on the bus without a device. -/
def machineNoAck : Machine := { machine0 with I2C1 := noAckBus }

/-- The machine `machine0` with the cursor moved by `SSD1306_setCursor x y`. -/
def machineAt (x y : Nat) : Machine := SSD1306_setCursor x y machine0

/-- The machine in which `SSD1306_writeString` draws its first character when it is called
with the cursor at `(x, y)`: the run origin is the cursor and the wrap counter is 1. -/
def machineRun (x y : Nat) : Machine :=
  { machine0 with
    SSD1306 := { xpos := x, ypos := y, xpos_init := x, ypos_init := y, wrap_counter := 1 } }

/-- A machine in the middle of a run that started at the origin: cursor at `(x, y)`, run
origin `(0, 0)`, wrap counter 1. -/
def machineMidRun (x y : Nat) : Machine :=
  { machine0 with
    SSD1306 := { xpos := x, ypos := y, xpos_init := 0, ypos_init := 0, wrap_counter := 1 } }

/-! ## Frame lemmas -/

theorem foldl_preserves {α β γ : Type} (f : α → β → α) (g : α → γ)
    (hf : ∀ a b, g (f a b) = g a) (l : List β) (a : α) : g (l.foldl f a) = g a := by
  induction l generalizing a with
  | nil => rfl
  | cons b l ih => rw [List.foldl_cons, ih, hf]

theorem draw_pixel_SSD1306 (x y : Nat) (c : SSD1306_COLOR) (m : Machine) :
    (SSD1306_draw_pixel x y c m).SSD1306 = m.SSD1306 := by
  unfold SSD1306_draw_pixel
  split_ifs <;> rfl

theorem draw_pixel_lastImg (x y : Nat) (c : SSD1306_COLOR) (m : Machine) :
    (SSD1306_draw_pixel x y c m).lastImg = m.lastImg := by
  unfold SSD1306_draw_pixel
  split_ifs <;> rfl

theorem draw_pixel_I2C1 (x y : Nat) (c : SSD1306_COLOR) (m : Machine) :
    (SSD1306_draw_pixel x y c m).I2C1 = m.I2C1 := by
  unfold SSD1306_draw_pixel
  split_ifs <;> rfl

theorem draw_pixel_length (x y : Nat) (c : SSD1306_COLOR) (m : Machine) :
    (SSD1306_draw_pixel x y c m).SSD1306_Buffer.length = m.SSD1306_Buffer.length := by
  unfold SSD1306_draw_pixel
  split_ifs <;> simp

theorem draw_pixel_out_of_range (x y : Nat) (c : SSD1306_COLOR) (m : Machine)
    (h : SSD1306_WIDTH ≤ x ∨ SSD1306_HEIGHT ≤ y) : SSD1306_draw_pixel x y c m = m := by
  unfold SSD1306_draw_pixel
  rw [if_pos h]

theorem blitRow_SSD1306 (pixel x y width : Nat) (c : SSD1306_COLOR) (m : Machine) :
    (blitRow pixel x y width c m).SSD1306 = m.SSD1306 := by
  unfold blitRow
  apply foldl_preserves _ (fun m : Machine => m.SSD1306)
  intro a b
  split_ifs <;> exact draw_pixel_SSD1306 _ _ _ _

theorem blitRow_lastImg (pixel x y width : Nat) (c : SSD1306_COLOR) (m : Machine) :
    (blitRow pixel x y width c m).lastImg = m.lastImg := by
  unfold blitRow
  apply foldl_preserves _ (fun m : Machine => m.lastImg)
  intro a b
  split_ifs <;> exact draw_pixel_lastImg _ _ _ _

theorem blitRow_I2C1 (pixel x y width : Nat) (c : SSD1306_COLOR) (m : Machine) :
    (blitRow pixel x y width c m).I2C1 = m.I2C1 := by
  unfold blitRow
  apply foldl_preserves _ (fun m : Machine => m.I2C1)
  intro a b
  split_ifs <;> exact draw_pixel_I2C1 _ _ _ _

theorem blitRow_length (pixel x y width : Nat) (c : SSD1306_COLOR) (m : Machine) :
    (blitRow pixel x y width c m).SSD1306_Buffer.length = m.SSD1306_Buffer.length := by
  unfold blitRow
  apply foldl_preserves _ (fun m : Machine => m.SSD1306_Buffer.length)
  intro a b
  split_ifs <;> exact draw_pixel_length _ _ _ _

theorem blitGlyph_SSD1306 (ch : Nat) (Font : FontDef) (c : SSD1306_COLOR) (m : Machine) :
    (blitGlyph ch Font c m).SSD1306 = m.SSD1306 := by
  unfold blitGlyph
  apply foldl_preserves _ (fun m : Machine => m.SSD1306)
  intro a b
  exact blitRow_SSD1306 _ _ _ _ _ _

theorem blitGlyph_lastImg (ch : Nat) (Font : FontDef) (c : SSD1306_COLOR) (m : Machine) :
    (blitGlyph ch Font c m).lastImg = m.lastImg := by
  unfold blitGlyph
  apply foldl_preserves _ (fun m : Machine => m.lastImg)
  intro a b
  exact blitRow_lastImg _ _ _ _ _ _

theorem blitGlyph_I2C1 (ch : Nat) (Font : FontDef) (c : SSD1306_COLOR) (m : Machine) :
    (blitGlyph ch Font c m).I2C1 = m.I2C1 := by
  unfold blitGlyph
  apply foldl_preserves _ (fun m : Machine => m.I2C1)
  intro a b
  exact blitRow_I2C1 _ _ _ _ _ _

theorem blitGlyph_length (ch : Nat) (Font : FontDef) (c : SSD1306_COLOR) (m : Machine) :
    (blitGlyph ch Font c m).SSD1306_Buffer.length = m.SSD1306_Buffer.length := by
  unfold blitGlyph
  apply foldl_preserves _ (fun m : Machine => m.SSD1306_Buffer.length)
  intro a b
  exact blitRow_length _ _ _ _ _ _

/-! ## Framebuffer primitives: bit-level lemmas -/

theorem set_bit_testBit (old k b : Nat) (hb : b < 8) :
    ((old ||| (1 <<< k)) % 256).testBit b = (decide (b = k) || old.testBit b) := by
  rw [show (256 : Nat) = 2 ^ 8 from rfl, Nat.testBit_mod_two_pow, Nat.testBit_or,
    Nat.one_shiftLeft, Nat.testBit_two_pow]
  simp [hb, Bool.or_comm, eq_comm]

theorem clear_bit_testBit (old k b : Nat) (hk : k < 8) (hb : b < 8) :
    ((old &&& (0xFFFFFFFF - (1 <<< k))) % 256).testBit b
      = (!decide (b = k) && old.testBit b) := by
  have h1 : (0xFFFFFFFF - (1 <<< k)) = 2 ^ 32 - (2 ^ k + 1) := by
    rw [Nat.one_shiftLeft]; omega
  have h2 : 2 ^ k < 2 ^ 32 := Nat.pow_lt_pow_right (by norm_num) (by omega)
  have h3 : b < 32 := by omega
  rw [show (256 : Nat) = 2 ^ 8 from rfl, Nat.testBit_mod_two_pow, Nat.testBit_and, h1,
    Nat.testBit_two_pow_sub_succ h2, Nat.testBit_two_pow]
  simp [hb, h3, Bool.and_comm, eq_comm]

theorem foldl_set_range (v : Nat) (n : Nat) (l : List Nat) (h : n ≤ l.length) :
    (List.range n).foldl (fun (b : List Nat) (i : Nat) => b.set i v) l
      = List.replicate n v ++ l.drop n := by
  induction n with
  | zero => simp
  | succ n ih =>
    rw [List.range_succ, List.foldl_append, ih (by omega)]
    apply List.ext_getElem?
    intro j
    simp only [List.foldl_cons, List.foldl_nil, List.getElem?_set, List.getElem?_append,
      List.getElem?_replicate, List.length_append, List.length_replicate, List.length_drop,
      List.getElem?_drop]
    by_cases h1 : n = j
    · subst h1
      have : n < n + (l.length - n) := by omega
      simp [this]
    · by_cases h2 : j < n
      · have : j < n + 1 := by omega
        simp [h1, h2, this]
      · have h3 : ¬ j < n + 1 := by omega
        simp only [h1, h2, h3, if_false]
        congr 1
        omega

theorem fill_buffer (color : SSD1306_COLOR) (m : Machine)
    (hlen : m.SSD1306_Buffer.length = 1024) :
    (SSD1306_fill color m).SSD1306_Buffer
      = List.replicate 1024 (if color = BLACK then 0x00 else 0xFF) := by
  unfold SSD1306_fill
  simp only [SSD1306_WIDTH, SSD1306_HEIGHT]
  rw [show (128 * 64 / 8 : Nat) = 1024 from rfl, foldl_set_range _ _ _ (by omega)]
  rw [List.drop_of_length_le (by omega), List.append_nil]

theorem foldl_set_length (v : Nat) (is : List Nat) (l : List Nat) :
    (is.foldl (fun (b : List Nat) (i : Nat) => b.set i v) l).length = l.length :=
  foldl_preserves _ (fun b : List Nat => b.length) (fun a b => List.length_set a b v) is l

theorem fill_length (color : SSD1306_COLOR) (m : Machine) :
    (SSD1306_fill color m).SSD1306_Buffer.length = m.SSD1306_Buffer.length := by
  simp only [SSD1306_fill]
  rw [foldl_set_length]

theorem getD_set (l : List Nat) (i j v : Nat) :
    (l.set i v).getD j 0 = if i = j ∧ i < l.length then v else l.getD j 0 := by
  simp only [List.getD_eq_getElem?_getD, List.getElem?_set]
  by_cases h1 : i = j
  · subst h1
    by_cases h2 : i < l.length
    · simp [h2]
    · simp [h2, List.getElem?_eq_none (Nat.le_of_not_lt h2)]
  · simp [h1]

theorem fill_SSD1306 (color : SSD1306_COLOR) (m : Machine) :
    (SSD1306_fill color m).SSD1306 = m.SSD1306 := by
  simp only [SSD1306_fill]

theorem fill_lastImg (color : SSD1306_COLOR) (m : Machine) :
    (SSD1306_fill color m).lastImg = m.lastImg := by
  simp only [SSD1306_fill]

theorem fill_I2C1 (color : SSD1306_COLOR) (m : Machine) :
    (SSD1306_fill color m).I2C1 = m.I2C1 := by
  simp only [SSD1306_fill]

/-! ## Claims on the framebuffer primitives -/

/-- C6: on a 1024-byte framebuffer `SSD1306_draw_pixel x y color` changes one pixel or
nothing. For `x < 128` and `y < 64` the byte index `x + (y / 8) * 128` is below 1024, bit
`y % 8` of that byte is afterwards 1 exactly for `WHITE`, and every other bit of every
byte is as before; for `x >= 128` or `y >= 64` the machine is unchanged. In both cases
the buffer keeps its length and the cursor is untouched. -/
theorem SSD1306_draw_pixel_one_pixel (x y : Nat) (color : SSD1306_COLOR) (m : Machine)
    (hlen : m.SSD1306_Buffer.length = 1024) :
    (x < 128 ∧ y < 64 →
      x + (y / 8) * 128 < 1024 ∧
      ((SSD1306_draw_pixel x y color m).SSD1306_Buffer.getD (x + (y / 8) * 128) 0).testBit
          (y % 8) = decide (color = WHITE) ∧
      (∀ i b, i < 1024 → b < 8 → (i ≠ x + (y / 8) * 128 ∨ b ≠ y % 8) →
        ((SSD1306_draw_pixel x y color m).SSD1306_Buffer.getD i 0).testBit b
          = (m.SSD1306_Buffer.getD i 0).testBit b)) ∧
    (128 ≤ x ∨ 64 ≤ y → SSD1306_draw_pixel x y color m = m) ∧
    (SSD1306_draw_pixel x y color m).SSD1306_Buffer.length = 1024 ∧
    (SSD1306_draw_pixel x y color m).SSD1306 = m.SSD1306 := by
  refine ⟨?_, ?_, ?_, draw_pixel_SSD1306 _ _ _ _⟩
  · rintro ⟨hx, hy⟩
    have hidx : x + (y / 8) * 128 < 1024 := by omega
    have hk : y % 8 < 8 := Nat.mod_lt _ (by norm_num)
    have hguard : ¬ (x ≥ SSD1306_WIDTH ∨ y ≥ SSD1306_HEIGHT) := by
      simp only [SSD1306_WIDTH, SSD1306_HEIGHT]; omega
    refine ⟨hidx, ?_, ?_⟩
    · unfold SSD1306_draw_pixel
      rw [if_neg hguard]
      cases color
      · simp only [SSD1306_WIDTH, reduceCtorEq, if_false, decide_False]
        rw [getD_set, if_pos ⟨rfl, by omega⟩, clear_bit_testBit _ _ _ hk hk]
        simp
      · simp only [SSD1306_WIDTH, if_true, decide_True]
        rw [getD_set, if_pos ⟨rfl, by omega⟩, set_bit_testBit _ _ _ hk]
        simp
    · intro i b _ hb hne
      unfold SSD1306_draw_pixel
      rw [if_neg hguard]
      cases color
      · simp only [SSD1306_WIDTH, reduceCtorEq, if_false]
        rw [getD_set]
        by_cases hi : x + y / 8 * 128 = i
        · rw [if_pos ⟨hi, by omega⟩, clear_bit_testBit _ _ _ hk hb]
          have hbk : b ≠ y % 8 := by
            rcases hne with h | h
            · exact absurd hi.symm h
            · exact h
          simp [hbk, hi]
        · rw [if_neg (fun h => hi h.1)]
      · simp only [SSD1306_WIDTH, if_true]
        rw [getD_set]
        by_cases hi : x + y / 8 * 128 = i
        · rw [if_pos ⟨hi, by omega⟩, set_bit_testBit _ _ _ hb]
          have hbk : b ≠ y % 8 := by
            rcases hne with h | h
            · exact absurd hi.symm h
            · exact h
          simp [hbk, hi]
        · rw [if_neg (fun h => hi h.1)]
  · intro h
    exact draw_pixel_out_of_range _ _ _ _ (by simpa [SSD1306_WIDTH, SSD1306_HEIGHT] using h)
  · rw [draw_pixel_length, hlen]

/-- C7: on a 1024-byte framebuffer, after `SSD1306_fill BLACK` every byte is `0x00` and
after `SSD1306_fill WHITE` every byte is `0xFF`, so that every pixel `(x, y)` with
`x < 128`, `y < 64` reads foreground; the result is the same for any two previous buffer
contents, the length is unchanged, and cursor and sprite are untouched. -/
theorem SSD1306_fill_all_bytes (m m2 : Machine) (color : SSD1306_COLOR)
    (hlen : m.SSD1306_Buffer.length = 1024) (hlen2 : m2.SSD1306_Buffer.length = 1024) :
    (SSD1306_fill BLACK m).SSD1306_Buffer = List.replicate 1024 0x00 ∧
    (SSD1306_fill WHITE m).SSD1306_Buffer = List.replicate 1024 0xFF ∧
    (∀ x y, x < 128 → y < 64 → pixelAt (SSD1306_fill WHITE m).SSD1306_Buffer x y = true) ∧
    (∀ x y, x < 128 → y < 64 → pixelAt (SSD1306_fill BLACK m).SSD1306_Buffer x y = false) ∧
    (SSD1306_fill color m).SSD1306_Buffer = (SSD1306_fill color m2).SSD1306_Buffer ∧
    (SSD1306_fill color m).SSD1306_Buffer.length = m.SSD1306_Buffer.length ∧
    (SSD1306_fill color m).SSD1306 = m.SSD1306 ∧
    (SSD1306_fill color m).lastImg = m.lastImg := by
  have hB := fill_buffer BLACK m hlen
  have hW := fill_buffer WHITE m hlen
  simp only [if_true, reduceCtorEq, if_false] at hB hW
  refine ⟨hB, hW, ?_, ?_, ?_, fill_length _ _, fill_SSD1306 _ _, fill_lastImg _ _⟩
  · intro x y hx hy
    have hidx : x + (y / 8) * 128 < 1024 := by omega
    have hk : y % 8 < 8 := Nat.mod_lt _ (by norm_num)
    rw [hW, pixelAt, List.getD_eq_getElem?_getD, List.getElem?_replicate]
    simp only [SSD1306_WIDTH, hidx, if_true, Option.getD_some]
    rw [show (255 : Nat) = 2 ^ 8 - 1 from rfl, Nat.testBit_two_pow_sub_one]
    simp [hk]
  · intro x y hx hy
    have hidx : x + (y / 8) * 128 < 1024 := by omega
    rw [hB, pixelAt, List.getD_eq_getElem?_getD, List.getElem?_replicate]
    simp only [SSD1306_WIDTH, hidx, if_true, Option.getD_some]
    exact Nat.zero_testBit _
  · rw [fill_buffer color m hlen, fill_buffer color m2 hlen2]

theorem machine0_length : machine0.SSD1306_Buffer.length = 1024 :=
  List.length_replicate 1024 0

/-- Witness of C6 at pixel `(3, 10)` of the cleared framebuffer: byte 131, bit 2. -/
theorem SSD1306_draw_pixel_one_pixel_witness :
    machine0.SSD1306_Buffer.length = 1024 ∧ (3 < 128 ∧ 10 < 64) ∧
    ((SSD1306_draw_pixel 3 10 WHITE machine0).SSD1306_Buffer.getD (3 + (10 / 8) * 128) 0).testBit
      (10 % 8) = decide (WHITE = WHITE) :=
  ⟨machine0_length, ⟨by decide, by decide⟩,
    ((SSD1306_draw_pixel_one_pixel 3 10 WHITE machine0 machine0_length).1
      ⟨by decide, by decide⟩).2.1⟩

/-- Witness of C7 on the cleared framebuffer and the same machine with pixel `(3, 10)` set. -/
theorem SSD1306_fill_all_bytes_witness :
    machine0.SSD1306_Buffer.length = 1024 ∧
    (SSD1306_draw_pixel 3 10 WHITE machine0).SSD1306_Buffer.length = 1024 ∧
    (SSD1306_fill WHITE machine0).SSD1306_Buffer = List.replicate 1024 0xFF ∧
    (SSD1306_fill BLACK machine0).SSD1306_Buffer
      = (SSD1306_fill BLACK (SSD1306_draw_pixel 3 10 WHITE machine0)).SSD1306_Buffer :=
  have h2 : (SSD1306_draw_pixel 3 10 WHITE machine0).SSD1306_Buffer.length = 1024 :=
    (draw_pixel_length 3 10 WHITE machine0).trans machine0_length
  ⟨machine0_length, h2,
    (SSD1306_fill_all_bytes machine0 (SSD1306_draw_pixel 3 10 WHITE machine0) BLACK
      machine0_length h2).2.1,
    (SSD1306_fill_all_bytes machine0 (SSD1306_draw_pixel 3 10 WHITE machine0) BLACK
      machine0_length h2).2.2.2.2.1⟩

/-! ## Text rendering -/

theorem write_char_of_none (ch : Nat) (Font : FontDef) (color : SSD1306_COLOR) (wrap : Nat)
    (m : Machine) (h : write_char_check Font wrap m = none) :
    SSD1306_write_char ch Font color wrap m = (1, m) := by
  unfold SSD1306_write_char
  rw [h]

theorem write_char_of_some (ch : Nat) (Font : FontDef) (color : SSD1306_COLOR) (wrap : Nat)
    (m m1 : Machine) (h : write_char_check Font wrap m = some m1) :
    SSD1306_write_char ch Font color wrap m
      = (ch, { blitGlyph ch Font color m1 with
          SSD1306 := { (blitGlyph ch Font color m1).SSD1306 with
            xpos := ((blitGlyph ch Font color m1).SSD1306.xpos + Font.FontWidth) % 65536 } }) := by
  unfold SSD1306_write_char
  rw [h]

/-- The check returns the sentinel exactly on these two paths. -/
theorem write_char_check_eq_none (Font : FontDef) (wrap : Nat) (m : Machine) :
    write_char_check Font wrap m = none ↔
      (wrap = 0 ∧ (128 ≤ m.SSD1306.xpos + Font.FontWidth ∨
                   64 ≤ m.SSD1306.ypos + Font.FontHeight)) ∨
      (wrap ≠ 0 ∧ m.SSD1306.xpos + Font.FontWidth < 128 ∧
                   64 ≤ m.SSD1306.ypos + Font.FontHeight) := by
  unfold write_char_check
  simp only [SSD1306_WIDTH, SSD1306_HEIGHT]
  split_ifs <;> simp <;> omega

/-- Without the wrap step the check hands the machine on as it is. -/
theorem write_char_check_fits (Font : FontDef) (wrap : Nat) (m m1 : Machine)
    (h : write_char_check Font wrap m = some m1)
    (hx : m.SSD1306.xpos + Font.FontWidth < 128) : m1 = m := by
  unfold write_char_check at h
  simp only [SSD1306_WIDTH, SSD1306_HEIGHT] at h
  split_ifs at h <;> first | omega | exact (Option.some.inj h).symm

/-- With the width check failed the check succeeds only through the wrap step. -/
theorem write_char_check_wraps (Font : FontDef) (wrap : Nat) (m m1 : Machine)
    (h : write_char_check Font wrap m = some m1)
    (hx : 128 ≤ m.SSD1306.xpos + Font.FontWidth) :
    wrap ≠ 0 ∧ m1 = { m with SSD1306 :=
      { m.SSD1306 with
        xpos := m.SSD1306.xpos_init
        ypos := ((m.SSD1306.ypos_init + Font.FontHeight) * m.SSD1306.wrap_counter) % 65536
        wrap_counter := (m.SSD1306.wrap_counter + 1) % 256 } } := by
  unfold write_char_check at h
  simp only [SSD1306_WIDTH, SSD1306_HEIGHT] at h
  split_ifs at h with h1 h2
  all_goals first
    | omega
    | exact ⟨h2, (Option.some.inj h).symm⟩

/-- C4: failure is atomic. A `SSD1306_write_char` call that returns the sentinel 1 for a
character other than code 1 returns the machine it was given (framebuffer, `xpos`,
`ypos`, `xpos_init`, `ypos_init`, `wrap_counter` all as before); so does every call on
the sentinel path of the space check, such as a call with wrap disabled and the line width
exceeded. A `SSD1306_writeImg` call that aborts on its bounds check leaves the
framebuffer and the cursor position `(xpos, ypos)` as before. -/
theorem drawing_failure_is_atomic (ch : Nat) (Font : FontDef) (color : SSD1306_COLOR)
    (wrap : Nat) (Img : ImgDef) (m : Machine) :
    (ch ≠ 1 → (SSD1306_write_char ch Font color wrap m).1 = 1 →
      (SSD1306_write_char ch Font color wrap m).2 = m) ∧
    (write_char_check Font wrap m = none →
      SSD1306_write_char ch Font color wrap m = (1, m)) ∧
    (wrap = 0 → 128 < m.SSD1306.xpos + Font.FontWidth →
      SSD1306_write_char ch Font color wrap m = (1, m)) ∧
    (SSD1306_WIDTH ≤ m.SSD1306.xpos + Img.imgWidth ∨
      SSD1306_HEIGHT ≤ m.SSD1306.ypos + Img.imgHeight →
      (SSD1306_writeImg Img color m).SSD1306_Buffer = m.SSD1306_Buffer ∧
      (SSD1306_writeImg Img color m).SSD1306.xpos = m.SSD1306.xpos ∧
      (SSD1306_writeImg Img color m).SSD1306.ypos = m.SSD1306.ypos) := by
  refine ⟨?_, write_char_of_none ch Font color wrap m, ?_, ?_⟩
  · intro hch hret
    cases hc : write_char_check Font wrap m with
    | none => rw [write_char_of_none _ _ _ _ _ hc]
    | some m1 =>
      rw [write_char_of_some _ _ _ _ _ _ hc] at hret
      exact absurd hret hch
  · intro hw hx
    apply write_char_of_none
    rw [write_char_check_eq_none]
    exact Or.inl ⟨hw, Or.inl (by omega)⟩
  · intro h
    unfold SSD1306_writeImg
    simp only
    rw [if_pos h]
    exact ⟨rfl, rfl, rfl⟩

/-- Witness of C4: character 65 at cursor `(127, 60)` with wrap disabled, and the 2x2
sprite at the same cursor. -/
theorem drawing_failure_is_atomic_witness :
    ((65 : Nat) ≠ 1 ∧ (SSD1306_write_char 65 solidFont WHITE 0 (machineAt 127 60)).1 = 1 ∧
      (SSD1306_write_char 65 solidFont WHITE 0 (machineAt 127 60)).2 = machineAt 127 60) ∧
    ((0 : Nat) = 0 ∧ 128 < (machineAt 127 60).SSD1306.xpos + solidFont.FontWidth ∧
      SSD1306_write_char 65 solidFont WHITE 0 (machineAt 127 60) = (1, machineAt 127 60)) ∧
    ((SSD1306_WIDTH ≤ (machineAt 127 60).SSD1306.xpos + dotImg.imgWidth ∨
      SSD1306_HEIGHT ≤ (machineAt 127 60).SSD1306.ypos + dotImg.imgHeight) ∧
      (SSD1306_writeImg dotImg WHITE (machineAt 127 60)).SSD1306_Buffer
        = (machineAt 127 60).SSD1306_Buffer) :=
  ⟨⟨by decide, by decide,
      (drawing_failure_is_atomic 65 solidFont WHITE 0 dotImg (machineAt 127 60)).1
        (by decide) (by decide)⟩,
    ⟨rfl, by decide,
      (drawing_failure_is_atomic 65 solidFont WHITE 0 dotImg (machineAt 127 60)).2.2.1
        rfl (by decide)⟩,
    ⟨by decide,
      ((drawing_failure_is_atomic 65 solidFont WHITE 0 dotImg (machineAt 127 60)).2.2.2
        (by decide)).1⟩⟩

/-- C3 as stated fails: in the middle of a run that started at `x_init = 0`, with the
cursor at `x = 125` and wrap enabled, writing a 7-pixel-wide glyph succeeds (returns the
character 65) and leaves `x = 7`, not `125 + 7`. -/
theorem write_char_wrap_resets_x :
    (SSD1306_write_char 65 solidFont WHITE 1 (machineMidRun 125 0)).1 = 65 ∧
    (SSD1306_write_char 65 solidFont WHITE 1 (machineMidRun 125 0)).2.SSD1306.xpos = 7 ∧
    (SSD1306_write_char 65 solidFont WHITE 1 (machineMidRun 125 0)).2.SSD1306.xpos
      ≠ (machineMidRun 125 0).SSD1306.xpos + solidFont.FontWidth := by
  set_option maxRecDepth 100000 in
  decide

/-- C3, amended: every successful `SSD1306_write_char` call (one whose space check hands
on a machine, so that the glyph is blitted and `ch` returned) that does not take the wrap
step, i.e. with `x + FontWidth < 128` before the call, leaves `x` equal to its value
before the call plus `FontWidth`, with wrap enabled as well as disabled. A successful call
with `128 <= x + FontWidth` has wrap enabled and leaves `x = (x_init + FontWidth) mod 2^16`. -/
theorem write_char_advances_x (ch : Nat) (Font : FontDef) (color : SSD1306_COLOR)
    (wrap : Nat) (m m1 : Machine) (hok : write_char_check Font wrap m = some m1) :
    (SSD1306_write_char ch Font color wrap m).1 = ch ∧
    (m.SSD1306.xpos + Font.FontWidth < 128 →
      (SSD1306_write_char ch Font color wrap m).2.SSD1306.xpos
        = m.SSD1306.xpos + Font.FontWidth) ∧
    (128 ≤ m.SSD1306.xpos + Font.FontWidth →
      wrap ≠ 0 ∧
      (SSD1306_write_char ch Font color wrap m).2.SSD1306.xpos
        = (m.SSD1306.xpos_init + Font.FontWidth) % 65536) := by
  rw [write_char_of_some _ _ _ _ _ _ hok]
  simp only [blitGlyph_SSD1306]
  refine ⟨trivial, ?_, ?_⟩
  · intro hx
    rw [write_char_check_fits _ _ _ _ hok hx]
    exact Nat.mod_eq_of_lt (by omega)
  · intro hx
    obtain ⟨hw, hm1⟩ := write_char_check_wraps _ _ _ _ hok hx
    exact ⟨hw, by rw [hm1]⟩

/-- Witness of the amended C3 at the origin (no wrap step taken, `x` goes from 0 to 7). -/
theorem write_char_advances_x_witness :
    write_char_check solidFont 1 machine0 = some machine0 ∧
    (machine0.SSD1306.xpos + solidFont.FontWidth < 128 ∧
      (SSD1306_write_char 65 solidFont WHITE 1 machine0).2.SSD1306.xpos
        = machine0.SSD1306.xpos + solidFont.FontWidth) :=
  ⟨rfl, by decide,
    (write_char_advances_x 65 solidFont WHITE 1 machine0 machine0 rfl).2.1 (by decide)⟩

/-- C5 (the code at a failing input): `SSD1306_writeString` called at cursor `(125, 50)`
starts its first character in `machineRun 125 50`. With wrap enabled the width check
fails, the wrap step moves the cursor to `y = (50 + 10) * 1 = 60`, and the glyph, 10 rows
high, is blitted there without a height check although `60 + 10 > 64`: the call returns
the character, and pixel `(125, 60)`, clear before, is set. -/
theorem write_char_blits_below_panel :
    (SSD1306_write_char 65 solidFont WHITE 1 (machineRun 125 50)).1 = 65 ∧
    (SSD1306_write_char 65 solidFont WHITE 1 (machineRun 125 50)).2.SSD1306.ypos = 60 ∧
    SSD1306_HEIGHT < 60 + solidFont.FontHeight ∧
    pixelAt (machineRun 125 50).SSD1306_Buffer 125 60 = false ∧
    pixelAt (SSD1306_write_char 65 solidFont WHITE 1 (machineRun 125 50)).2.SSD1306_Buffer
      125 60 = true := by
  set_option maxRecDepth 100000 in
  decide

/-- C2 (the code at failing inputs): a 7x10 glyph at `x = 121` ends exactly at the right
edge (`121 + 7 = 128`) and one at `y = 54` exactly at the bottom edge (`54 + 10 = 64`);
with wrap disabled both calls return the sentinel and leave the machine as it was. The
2x2 sprite at `x = 126` or at `y = 62` ends exactly at an edge as well, and
`SSD1306_writeImg` aborts: the cursor does not advance and pixel `(x, y)`, which the
sprite sets, stays clear. -/
theorem fit_check_rejects_exact_fit :
    (machineAt 121 0).SSD1306.xpos + solidFont.FontWidth = SSD1306_WIDTH ∧
    SSD1306_write_char 65 solidFont WHITE 0 (machineAt 121 0) = (1, machineAt 121 0) ∧
    (machineAt 0 54).SSD1306.ypos + solidFont.FontHeight = SSD1306_HEIGHT ∧
    SSD1306_write_char 65 solidFont WHITE 0 (machineAt 0 54) = (1, machineAt 0 54) ∧
    (machineAt 126 0).SSD1306.xpos + dotImg.imgWidth = SSD1306_WIDTH ∧
    (SSD1306_writeImg dotImg WHITE (machineAt 126 0)).SSD1306.xpos = 126 ∧
    pixelAt (SSD1306_writeImg dotImg WHITE (machineAt 126 0)).SSD1306_Buffer 126 0 = false ∧
    (machineAt 0 62).SSD1306.ypos + dotImg.imgHeight = SSD1306_HEIGHT ∧
    (SSD1306_writeImg dotImg WHITE (machineAt 0 62)).SSD1306.xpos = 0 ∧
    pixelAt (SSD1306_writeImg dotImg WHITE (machineAt 0 62)).SSD1306_Buffer 0 62 = false ∧
    (SSD1306_writeImg dotImg WHITE (machineAt 125 0)).SSD1306.xpos = 127 ∧
    pixelAt (SSD1306_writeImg dotImg WHITE (machineAt 125 0)).SSD1306_Buffer 125 0 = true := by
  refine ⟨rfl, rfl, rfl, rfl, rfl, ?_, ?_, rfl, ?_, ?_, ?_, ?_⟩ <;>
    (set_option maxRecDepth 100000 in decide)

/-- C1 (the code at failing inputs): for the string "Hi" (72, 105) at the origin, where
both characters fit on the line, `SSD1306_writeString` returns 72 after the first
character: `x` ends at 7, not 14, the cell of the first character is drawn (pixel
`(0, 0)`) and the cell of the second is not (pixel `(7, 0)`). For the same string at
`x = 125` with wrap disabled, where the first character already fails, the loop goes on
to the terminator and returns 0 instead of the failing character. -/
theorem writeString_returns_after_first_char :
    (SSD1306_writeString [72, 105] solidFont WHITE 0 machine0).1 = 72 ∧
    (SSD1306_writeString [72, 105] solidFont WHITE 0 machine0).2.SSD1306.xpos = 7 ∧
    pixelAt (SSD1306_writeString [72, 105] solidFont WHITE 0 machine0).2.SSD1306_Buffer 0 0
      = true ∧
    pixelAt (SSD1306_writeString [72, 105] solidFont WHITE 0 machine0).2.SSD1306_Buffer 7 0
      = false ∧
    (SSD1306_write_char 72 solidFont WHITE 0 (machineRun 125 0)).1 = 1 ∧
    (SSD1306_writeString [72, 105] solidFont WHITE 0 (machineAt 125 0)).1 = 0 := by
  set_option maxRecDepth 100000 in
  decide

/-! ## Sprite rendering -/

theorem blitSection_SSD1306 (Img : ImgDef) (c : SSD1306_COLOR) (m : Machine) (s : Nat) :
    (blitSection Img c m s).SSD1306
      = { m.SSD1306 with xpos := (m.SSD1306.xpos + Img.imgWidth) % 65536 } := by
  have h : ∀ (l : List Nat) (m0 : Machine),
      (l.foldl (fun (m : Machine) (i : Nat) =>
        blitRow (Img.data (i + s * Img.imgHeight) % 65536)
          m.SSD1306.xpos (m.SSD1306.ypos + i) Img.imgWidth c m) m0).SSD1306 = m0.SSD1306 :=
    fun l m0 => foldl_preserves _ (fun m : Machine => m.SSD1306)
      (fun a b => blitRow_SSD1306 _ _ _ _ _ _) l m0
  simp only [blitSection, h]

theorem blitSection_lastImg (Img : ImgDef) (c : SSD1306_COLOR) (m : Machine) (s : Nat) :
    (blitSection Img c m s).lastImg = m.lastImg := by
  have h : ∀ (l : List Nat) (m0 : Machine),
      (l.foldl (fun (m : Machine) (i : Nat) =>
        blitRow (Img.data (i + s * Img.imgHeight) % 65536)
          m.SSD1306.xpos (m.SSD1306.ypos + i) Img.imgWidth c m) m0).lastImg = m0.lastImg :=
    fun l m0 => foldl_preserves _ (fun m : Machine => m.lastImg)
      (fun a b => blitRow_lastImg _ _ _ _ _ _) l m0
  simp only [blitSection, h]

theorem blitSection_I2C1 (Img : ImgDef) (c : SSD1306_COLOR) (m : Machine) (s : Nat) :
    (blitSection Img c m s).I2C1 = m.I2C1 := by
  have h : ∀ (l : List Nat) (m0 : Machine),
      (l.foldl (fun (m : Machine) (i : Nat) =>
        blitRow (Img.data (i + s * Img.imgHeight) % 65536)
          m.SSD1306.xpos (m.SSD1306.ypos + i) Img.imgWidth c m) m0).I2C1 = m0.I2C1 :=
    fun l m0 => foldl_preserves _ (fun m : Machine => m.I2C1)
      (fun a b => blitRow_I2C1 _ _ _ _ _ _) l m0
  simp only [blitSection, h]

theorem blitSection_length (Img : ImgDef) (c : SSD1306_COLOR) (m : Machine) (s : Nat) :
    (blitSection Img c m s).SSD1306_Buffer.length = m.SSD1306_Buffer.length := by
  have h : ∀ (l : List Nat) (m0 : Machine),
      (l.foldl (fun (m : Machine) (i : Nat) =>
        blitRow (Img.data (i + s * Img.imgHeight) % 65536)
          m.SSD1306.xpos (m.SSD1306.ypos + i) Img.imgWidth c m) m0).SSD1306_Buffer.length
        = m0.SSD1306_Buffer.length :=
    fun l m0 => foldl_preserves _ (fun m : Machine => m.SSD1306_Buffer.length)
      (fun a b => blitRow_length _ _ _ _ _ _) l m0
  simp only [blitSection, h]

/-- The section loop moves `xpos` by one sprite width per section and nothing else of the
cursor, as long as the 16-bit field does not wrap around. -/
theorem blitSections_SSD1306 (Img : ImgDef) (c : SSD1306_COLOR) (l : List Nat) (m : Machine)
    (h : m.SSD1306.xpos + l.length * Img.imgWidth < 65536) :
    (l.foldl (blitSection Img c) m).SSD1306
      = { m.SSD1306 with xpos := m.SSD1306.xpos + l.length * Img.imgWidth } := by
  induction l generalizing m with
  | nil => simp
  | cons s l ih =>
    have hlen : (s :: l).length * Img.imgWidth = Img.imgWidth + l.length * Img.imgWidth := by
      rw [List.length_cons, Nat.succ_mul, Nat.add_comm]
    rw [hlen] at h
    have hstep : (blitSection Img c m s).SSD1306.xpos = m.SSD1306.xpos + Img.imgWidth := by
      rw [blitSection_SSD1306]
      exact Nat.mod_eq_of_lt (by omega)
    rw [List.foldl_cons, ih _ (by rw [hstep]; omega), hlen, hstep, blitSection_SSD1306]
    simp only [Nat.add_assoc]

theorem blitSections_lastImg (Img : ImgDef) (c : SSD1306_COLOR) (l : List Nat) (m : Machine) :
    (l.foldl (blitSection Img c) m).lastImg = m.lastImg :=
  foldl_preserves _ (fun m : Machine => m.lastImg) (fun a b => blitSection_lastImg _ _ a b) l m

theorem blitSections_I2C1 (Img : ImgDef) (c : SSD1306_COLOR) (l : List Nat) (m : Machine) :
    (l.foldl (blitSection Img c) m).I2C1 = m.I2C1 :=
  foldl_preserves _ (fun m : Machine => m.I2C1) (fun a b => blitSection_I2C1 _ _ a b) l m

theorem blitSections_length (Img : ImgDef) (c : SSD1306_COLOR) (l : List Nat) (m : Machine) :
    (l.foldl (blitSection Img c) m).SSD1306_Buffer.length = m.SSD1306_Buffer.length :=
  foldl_preserves _ (fun m : Machine => m.SSD1306_Buffer.length)
    (fun a b => blitSection_length _ _ a b) l m

/-- C8: for every sprite (with `imgSections` a `uint8_t`) and cursor state for which
`SSD1306_writeImg` does not abort, `xpos` after the call is `xpos` before plus
`imgWidth * imgSections`, `ypos` is unchanged, `xpos_init`/`ypos_init` hold the cursor
position from before the call, the wrap counter is untouched and the sprite is retained
in `lastImg`. -/
theorem SSD1306_writeImg_advances_x (Img : ImgDef) (color : SSD1306_COLOR) (m : Machine)
    (hsec : Img.imgSections < 256)
    (hdraw : ¬ (SSD1306_WIDTH ≤ m.SSD1306.xpos + Img.imgWidth ∨
                SSD1306_HEIGHT ≤ m.SSD1306.ypos + Img.imgHeight)) :
    (SSD1306_writeImg Img color m).SSD1306.xpos
      = m.SSD1306.xpos + Img.imgWidth * Img.imgSections ∧
    (SSD1306_writeImg Img color m).SSD1306.ypos = m.SSD1306.ypos ∧
    (SSD1306_writeImg Img color m).SSD1306.xpos_init = m.SSD1306.xpos ∧
    (SSD1306_writeImg Img color m).SSD1306.ypos_init = m.SSD1306.ypos ∧
    (SSD1306_writeImg Img color m).SSD1306.wrap_counter = m.SSD1306.wrap_counter ∧
    (SSD1306_writeImg Img color m).lastImg = Img := by
  have hw : m.SSD1306.xpos + Img.imgWidth < 128 := by
    simp only [SSD1306_WIDTH, SSD1306_HEIGHT] at hdraw; omega
  have hmul : Img.imgSections * Img.imgWidth ≤ 255 * 127 :=
    Nat.mul_le_mul (by omega) (by omega)
  unfold SSD1306_writeImg
  simp only
  rw [if_neg hdraw, blitSections_SSD1306 _ _ _ _ (by simp only [List.length_range]; omega),
    blitSections_lastImg]
  simp only [List.length_range, Nat.mul_comm Img.imgSections]
  exact ⟨trivial, trivial, trivial, trivial, trivial, trivial⟩

/-- Witness of C8: the 2x2 one-section sprite at cursor `(10, 10)`. -/
theorem SSD1306_writeImg_advances_x_witness :
    dotImg.imgSections < 256 ∧
    ¬ (SSD1306_WIDTH ≤ (machineAt 10 10).SSD1306.xpos + dotImg.imgWidth ∨
       SSD1306_HEIGHT ≤ (machineAt 10 10).SSD1306.ypos + dotImg.imgHeight) ∧
    (SSD1306_writeImg dotImg WHITE (machineAt 10 10)).SSD1306.xpos
      = (machineAt 10 10).SSD1306.xpos + dotImg.imgWidth * dotImg.imgSections :=
  ⟨by decide, by decide,
    (SSD1306_writeImg_advances_x dotImg WHITE (machineAt 10 10) (by decide) (by decide)).1⟩

/-! ## The bus: what any run puts on the wire -/

theorem Steps.refl (h : I2C_TypeDef) : Steps h h [] :=
  ⟨rfl, rfl, (List.append_nil _).symm⟩

theorem Steps.trans {h1 h2 h3 : I2C_TypeDef} {e1 e2 : List BusEvent}
    (a : Steps h1 h2 e1) (b : Steps h2 h3 e2) : Steps h1 h3 (e1 ++ e2) :=
  ⟨b.1.trans a.1, b.2.1.trans a.2.1, by rw [b.2.2, a.2.2, List.append_assoc]⟩

theorem Steps.emit (e : BusEvent) (h : I2C_TypeDef) : Steps h (h.emit e) [e] :=
  ⟨rfl, rfl, rfl⟩

theorem Steps.readSR1 (h : I2C_TypeDef) : Steps h h.readSR1.2 [] :=
  ⟨rfl, rfl, (List.append_nil _).symm⟩

theorem Steps.readSR2 (h : I2C_TypeDef) : Steps h h.readSR2.2 [] :=
  ⟨rfl, rfl, (List.append_nil _).symm⟩

theorem Steps.ready {h h2 : I2C_TypeDef} {evs : List BusEvent} (a : Steps h h2 evs)
    (hr : BusReady h) : BusReady h2 := by
  unfold BusReady at *
  rw [a.1, a.2.1]
  exact hr

theorem waitSR1_steps (bit fuel : Nat) (h h2 : I2C_TypeDef)
    (hw : waitSR1 bit fuel h = some h2) : Steps h h2 [] := by
  induction fuel generalizing h with
  | zero => simp [waitSR1] at hw
  | succ fuel ih =>
    unfold waitSR1 at hw
    split_ifs at hw
    · rw [← Option.some.inj hw]; exact Steps.readSR1 h
    · exact (Steps.readSR1 h).trans (ih _ hw)

theorem waitSR2_steps (bit fuel : Nat) (h h2 : I2C_TypeDef)
    (hw : waitSR2 bit fuel h = some h2) : Steps h h2 [] := by
  induction fuel generalizing h with
  | zero => simp [waitSR2] at hw
  | succ fuel ih =>
    unfold waitSR2 at hw
    split_ifs at hw
    · rw [← Option.some.inj hw]; exact Steps.readSR2 h
    · exact (Steps.readSR2 h).trans (ih _ hw)

theorem pollSR1_steps (bit timeout counter : Nat) (h : I2C_TypeDef) :
    Steps h (pollSR1 bit timeout counter h).2 [] ∧ (pollSR1 bit timeout counter h).1 ≤ 1 := by
  generalize hn : timeout - counter = n
  induction n generalizing counter h with
  | zero =>
    unfold pollSR1
    split_ifs
    · exact ⟨Steps.readSR1 h, by simp⟩
    · exact ⟨Steps.readSR1 h, by simp⟩
    · omega
  | succ n ih =>
    unfold pollSR1
    split_ifs
    · exact ⟨Steps.readSR1 h, by simp⟩
    · exact ⟨Steps.readSR1 h, by simp⟩
    · have := ih (counter + 1) h.readSR1.2 (by omega)
      exact ⟨(Steps.readSR1 h).trans this.1, this.2⟩

theorem I2C_writeSlaveAddress_steps (address timeout : Nat) (h : I2C_TypeDef) :
    Steps h (I2C_writeSlaveAddress address timeout h).2 [BusEvent.DR address] ∧
    (I2C_writeSlaveAddress address timeout h).1 ≤ 1 := by
  have hp := pollSR1_steps 1 timeout 0 (h.emit (BusEvent.DR address))
  unfold I2C_writeSlaveAddress
  simp only
  split_ifs
  · exact ⟨(Steps.emit _ h).trans hp.1, by simp⟩
  · exact ⟨(Steps.emit _ h).trans
      ((hp.1.trans (Steps.readSR1 _)).trans (Steps.readSR2 _)), by simp⟩

theorem I2C_write_steps (fuel data timeout : Nat) (h : I2C_TypeDef) (r : Nat × I2C_TypeDef)
    (hw : I2C_write fuel data timeout h = some r) :
    Steps h r.2 [BusEvent.DR data] ∧ r.1 ≤ 1 := by
  unfold I2C_write at hw
  cases h1 : waitSR1 7 fuel h with
  | none => rw [h1] at hw; simp at hw
  | some h1' =>
    rw [h1] at hw
    have hp := pollSR1_steps 2 timeout 0 (h1'.emit (BusEvent.DR data))
    have hs := ((waitSR1_steps _ _ _ _ h1).trans (Steps.emit (BusEvent.DR data) h1')).trans hp.1
    simp only at hw
    split_ifs at hw <;> (rw [← Option.some.inj hw]; exact ⟨hs, by simp⟩)

theorem writeMulti_loop_steps (fuel size : Nat) (data : List Nat) (h h2 : I2C_TypeDef)
    (hw : writeMulti_loop fuel size data h = some h2) :
    Steps h h2 ((List.range size).map (fun k => BusEvent.DR (data.getD k 0))) := by
  induction size generalizing data h with
  | zero =>
    unfold writeMulti_loop at hw
    rw [← Option.some.inj hw]
    exact Steps.refl h
  | succ size ih =>
    unfold writeMulti_loop at hw
    cases h1 : waitSR1 7 fuel h with
    | none => rw [h1] at hw; simp at hw
    | some h1' =>
      rw [h1] at hw
      have hrest := ih _ _ hw
      have hs := ((waitSR1_steps _ _ _ _ h1).trans
        (Steps.emit (BusEvent.DR (data.headD 0)) h1')).trans hrest
      have hev : ([] ++ [BusEvent.DR (data.headD 0)]) ++
          (List.range size).map (fun k => BusEvent.DR (data.tail.getD k 0))
          = (List.range (size + 1)).map (fun k => BusEvent.DR (data.getD k 0)) := by
        rw [List.range_succ_eq_map, List.map_cons, List.map_map]
        cases data <;> simp [Function.comp_def]
      rw [hev] at hs
      exact hs
theorem I2C_writeMulti_steps (fuel : Nat) (data : List Nat) (size timeout : Nat)
    (h : I2C_TypeDef) (r : Nat × I2C_TypeDef)
    (hw : I2C_writeMulti fuel data size timeout h = some r) :
    Steps h r.2 ((List.range size).map (fun k => BusEvent.DR (data.getD k 0))) ∧ r.1 ≤ 1 := by
  unfold I2C_writeMulti at hw
  cases h1 : waitSR1 7 fuel h with
  | none => rw [h1] at hw; simp at hw
  | some h1' =>
    rw [h1] at hw
    simp only at hw
    cases h2 : writeMulti_loop fuel size data h1' with
    | none => rw [h2] at hw; simp at hw
    | some h2' =>
      rw [h2] at hw
      have hp := pollSR1_steps 2 timeout 0 h2'
      have hs := ((waitSR1_steps _ _ _ _ h1).trans (writeMulti_loop_steps _ _ _ _ _ h2)).trans hp.1
      simp only [List.nil_append, List.append_nil] at hs
      simp only at hw
      split_ifs at hw <;> (rw [← Option.some.inj hw]; exact ⟨hs, by simp⟩)

/-- A transfer that got past the address phase has put start, the device address and the
control byte on the wire. -/
theorem beginTransfer_steps (fuel memAddress : Nat) (h : I2C_TypeDef) (r : Nat × I2C_TypeDef)
    (hw : beginTransfer fuel memAddress 1 h = some r) :
    r.1 ≤ 1 ∧ (r.1 = 0 → Steps h r.2
      [BusEvent.START, BusEvent.DR 0x78, BusEvent.DR (I2C_MEM_ADD_LSB memAddress)]) := by
  unfold beginTransfer at hw
  unfold I2C_start at hw
  cases h1 : waitSR1 0 fuel (h.emit BusEvent.START) with
  | none => rw [h1] at hw; simp at hw
  | some h1' =>
    rw [h1] at hw
    simp only at hw
    cases h2 : waitSR2 1 fuel h1' with
    | none => rw [h2] at hw; simp at hw
    | some h2' =>
      rw [h2] at hw
      simp only at hw
      have ha := I2C_writeSlaveAddress_steps SSD1306_I2C_ADDR TIMEOUT_MS h2'
      split_ifs at hw with hrv
      · rw [← Option.some.inj hw]
        exact ⟨ha.2, fun h0 => absurd h0 hrv⟩
      · cases h3 : waitSR1 7 fuel (I2C_writeSlaveAddress SSD1306_I2C_ADDR TIMEOUT_MS h2').2 with
        | none => rw [h3] at hw; simp at hw
        | some h3' =>
          rw [h3] at hw
          simp only [sendMemAddress, I2C_MEMADD_SIZE_8BIT, if_true] at hw
          cases h5 : waitSR1 7 fuel (h3'.emit (BusEvent.DR (I2C_MEM_ADD_LSB memAddress))) with
          | none => rw [h5] at hw; simp at hw
          | some h5' =>
            rw [h5] at hw
            rw [← Option.some.inj hw]
            refine ⟨by simp, fun _ => ?_⟩
            have hs := ((((((Steps.emit BusEvent.START h).trans (waitSR1_steps _ _ _ _ h1)).trans
              (waitSR2_steps _ _ _ _ h2)).trans ha.1).trans (waitSR1_steps _ _ _ _ h3)).trans
              (Steps.emit (BusEvent.DR (I2C_MEM_ADD_LSB memAddress)) h3')).trans
              (waitSR1_steps _ _ _ _ h5)
            simpa [SSD1306_I2C_ADDR] using hs

/-- Function `SSD1306_write` returns 0 or 1, and when it returns 0 it has put one complete
transaction on the wire. -/
theorem SSD1306_write_steps (fuel data memAddress : Nat) (h : I2C_TypeDef)
    (r : Nat × I2C_TypeDef) (hw : SSD1306_write fuel data memAddress 1 h = some r) :
    r.1 ≤ 1 ∧ (r.1 = 0 → Steps h r.2
      (Transaction.events
        { address := 0x78, control := I2C_MEM_ADD_LSB memAddress, payload := [data] })) := by
  unfold SSD1306_write at hw
  cases hb : beginTransfer fuel memAddress 1 h with
  | none => rw [hb] at hw; simp at hw
  | some rb =>
    rw [hb] at hw
    have hbs := beginTransfer_steps _ _ _ _ hb
    simp only at hw
    split_ifs at hw with hrv
    · rw [← Option.some.inj hw]
      exact ⟨hbs.1, fun h0 => absurd h0 hrv⟩
    · cases h2 : I2C_write fuel data TIMEOUT_MS rb.2 with
      | none => rw [h2] at hw; simp at hw
      | some r2 =>
        rw [h2] at hw
        have h2s := I2C_write_steps _ _ _ _ _ h2
        simp only at hw
        split_ifs at hw with hrv2
        · rw [← Option.some.inj hw]
          exact ⟨h2s.2, fun h0 => absurd h0 hrv2⟩
        · rw [← Option.some.inj hw]
          refine ⟨h2s.2, fun _ => ?_⟩
          have hs := ((hbs.2 (not_not.mp hrv)).trans h2s.1).trans (Steps.emit BusEvent.STOP r2.2)
          simpa [Transaction.events, I2C_stop] using hs

/-- Function `SSD1306_writeMulti` returns 0 or 1, and when it returns 0 it has put one complete
transaction with `size` payload bytes on the wire. -/
theorem SSD1306_writeMulti_steps (fuel : Nat) (data : List Nat) (size memAddress : Nat)
    (h : I2C_TypeDef) (r : Nat × I2C_TypeDef)
    (hw : SSD1306_writeMulti fuel data size memAddress 1 h = some r) :
    r.1 ≤ 1 ∧ (r.1 = 0 → Steps h r.2
      (Transaction.events
        { address := 0x78, control := I2C_MEM_ADD_LSB memAddress,
          payload := (List.range size).map (fun k => data.getD k 0) })) := by
  unfold SSD1306_writeMulti at hw
  cases hb : beginTransfer fuel memAddress 1 h with
  | none => rw [hb] at hw; simp at hw
  | some rb =>
    rw [hb] at hw
    have hbs := beginTransfer_steps _ _ _ _ hb
    simp only at hw
    split_ifs at hw with hrv
    · rw [← Option.some.inj hw]
      exact ⟨hbs.1, fun h0 => absurd h0 hrv⟩
    · cases h2 : I2C_writeMulti fuel data size TIMEOUT_MS rb.2 with
      | none => rw [h2] at hw; simp at hw
      | some r2 =>
        rw [h2] at hw
        have h2s := I2C_writeMulti_steps _ _ _ _ _ _ h2
        simp only at hw
        split_ifs at hw with hrv2
        · rw [← Option.some.inj hw]
          exact ⟨h2s.2, fun h0 => absurd h0 hrv2⟩
        · rw [← Option.some.inj hw]
          refine ⟨h2s.2, fun _ => ?_⟩
          have hs := ((hbs.2 (not_not.mp hrv)).trans h2s.1).trans (Steps.emit BusEvent.STOP r2.2)
          simpa [Transaction.events, I2C_stop, List.map_map, Function.comp_def] using hs
theorem getD_drop (l : List Nat) (n k : Nat) : (l.drop n).getD k 0 = l.getD (n + k) 0 := by
  rw [List.getD_eq_getElem?_getD, List.getD_eq_getElem?_getD, List.getElem?_drop]

/-- One pass of the page loop adds the number `k` of failed writes (at most 4) to the
accumulator; without a failure it has put the four transactions of the page on the wire. -/
theorem update_page_steps (fuel : Nat) (buf : List Nat) (acc r : Nat × I2C_TypeDef) (i : Nat)
    (hi : i < 8) (hw : update_page fuel buf acc i = some r) :
    ∃ k, k ≤ 4 ∧ r.1 = (acc.1 + k) % 256 ∧
      (k = 0 → Steps acc.2 r.2 ((pageTransactions buf i).flatMap Transaction.events)) := by
  unfold update_page at hw
  cases h1 : SSD1306_write fuel ((0xB0 + i) % 256) SSD1306_WRITE_COMMAND 1 acc.2 with
  | none => rw [h1] at hw; simp at hw
  | some r1 =>
    rw [h1] at hw
    simp only at hw
    cases h2 : SSD1306_write fuel 0x00 SSD1306_WRITE_COMMAND 1 r1.2 with
    | none => rw [h2] at hw; simp at hw
    | some r2 =>
      rw [h2] at hw
      simp only at hw
      cases h3 : SSD1306_write fuel 0x10 SSD1306_WRITE_COMMAND 1 r2.2 with
      | none => rw [h3] at hw; simp at hw
      | some r3 =>
        rw [h3] at hw
        simp only at hw
        cases h4 : SSD1306_writeMulti fuel (buf.drop (SSD1306_WIDTH * i)) (SSD1306_WIDTH % 256)
            SSD1306_WRITE_DATA 1 r3.2 with
        | none => rw [h4] at hw; simp at hw
        | some r4 =>
          rw [h4] at hw
          rw [← Option.some.inj hw]
          have s1 := SSD1306_write_steps _ _ _ _ _ h1
          have s2 := SSD1306_write_steps _ _ _ _ _ h2
          have s3 := SSD1306_write_steps _ _ _ _ _ h3
          have s4 := SSD1306_writeMulti_steps _ _ _ _ _ _ h4
          refine ⟨r1.1 + r2.1 + r3.1 + r4.1, by omega, by simp only; omega, fun hk => ?_⟩
          have hs := (((s1.2 (by omega)).trans (s2.2 (by omega))).trans (s3.2 (by omega))).trans
            (s4.2 (by omega))
          have hb : (0xB0 + i) % 256 = 0xB0 + i := Nat.mod_eq_of_lt (by omega)
          have hc : I2C_MEM_ADD_LSB SSD1306_WRITE_COMMAND = 0x00 := by decide
          have hd : I2C_MEM_ADD_LSB SSD1306_WRITE_DATA = 0x40 := by decide
          have hsz : SSD1306_WIDTH % 256 = 128 := by decide
          rw [hb, hc, hd, hsz] at hs
          simp only [getD_drop, SSD1306_WIDTH] at hs
          simpa [pageTransactions, List.flatMap_cons, List.flatMap_nil] using hs

theorem update_fold_steps (fuel : Nat) (buf : List Nat) (ps : List Nat)
    (hps : ∀ p ∈ ps, p < 8) (acc r : Nat × I2C_TypeDef) (hacc : acc.1 < 256)
    (hw : ps.foldlM (update_page fuel buf) acc = some r) :
    ∃ k, k ≤ 4 * ps.length ∧ r.1 = (acc.1 + k) % 256 ∧
      (k = 0 → Steps acc.2 r.2
        (ps.flatMap (fun p => (pageTransactions buf p).flatMap Transaction.events))) := by
  induction ps generalizing acc with
  | nil =>
    simp only [List.foldlM_nil, pure] at hw
    rw [← Option.some.inj hw]
    exact ⟨0, by simp, by simp only [Nat.add_zero]; omega, fun _ => Steps.refl _⟩
  | cons p ps ih =>
    rw [List.foldlM_cons] at hw
    cases h1 : update_page fuel buf acc p with
    | none => rw [h1] at hw; simp at hw
    | some r1 =>
      rw [h1] at hw
      simp only [Option.bind_eq_bind, Option.some_bind] at hw
      obtain ⟨k1, hk1, hr1, hs1⟩ := update_page_steps _ _ _ _ _ (hps p (List.mem_cons_self _ _)) h1
      obtain ⟨k2, hk2, hr2, hs2⟩ := ih (fun q hq => hps q (List.mem_cons_of_mem _ hq)) r1 (by omega) hw
      refine ⟨k1 + k2, by simp only [List.length_cons]; omega, by rw [hr2, hr1]; omega, fun hk => ?_⟩
      have := (hs1 (by omega)).trans (hs2 (by omega))
      simpa [List.flatMap_cons] using this
/-- Function `SSD1306_update` writes neither the framebuffer nor the cursor nor the sprite; its
result is the number of failed writes, at most 32, and when it is 0 the peripheral has
seen the 32 transactions of a flush. -/
theorem SSD1306_update_steps (fuel : Nat) (m : Machine) (r : Nat × Machine)
    (hw : SSD1306_update fuel m = some r) :
    r.2.SSD1306_Buffer = m.SSD1306_Buffer ∧ r.2.SSD1306 = m.SSD1306 ∧
    r.2.lastImg = m.lastImg ∧ r.1 ≤ 32 ∧
    (r.1 = 0 → Steps m.I2C1 r.2.I2C1
      ((flushTransactions m.SSD1306_Buffer).flatMap Transaction.events)) := by
  unfold SSD1306_update at hw
  cases hf : (List.range 8).foldlM (update_page fuel m.SSD1306_Buffer) (0, m.I2C1) with
  | none => rw [hf] at hw; simp at hw
  | some rf =>
    rw [hf] at hw
    rw [← Option.some.inj hw]
    obtain ⟨k, hk, hr, hs⟩ := update_fold_steps fuel m.SSD1306_Buffer (List.range 8)
      (fun p hp => List.mem_range.mp hp) (0, m.I2C1) rf (Nat.zero_lt_succ 255) hf
    rw [List.length_range] at hk
    simp only [Nat.zero_add] at hr
    refine ⟨rfl, rfl, rfl, by simp only; omega, fun h0 => ?_⟩
    have hk0 : k = 0 := by simp only at h0; omega
    have := hs hk0
    simpa [flushTransactions, List.flatMap_assoc] using this

/-! ## The bus: a peripheral that is always ready -/

theorem waitSR1_ready (bit fuel : Nat) (h : I2C_TypeDef) (hr : BusReady h)
    (hbit : bit = 0 ∨ bit = 1 ∨ bit = 2 ∨ bit = 7) :
    waitSR1 bit (fuel + 1) h = some h.readSR1.2 := by
  have hflag : h.readSR1.1 &&& (1 <<< bit) ≠ 0 := by
    have := hr.1 h.sr1_reads
    rcases hbit with rfl | rfl | rfl | rfl
    · exact this.1
    · exact this.2.1
    · exact this.2.2.1
    · exact this.2.2.2
  unfold waitSR1
  rw [if_pos hflag]

theorem waitSR2_ready (fuel : Nat) (h : I2C_TypeDef) (hr : BusReady h) :
    waitSR2 1 (fuel + 1) h = some h.readSR2.2 := by
  have hflag : h.readSR2.1 &&& (1 <<< 1) ≠ 0 := hr.2 h.sr2_reads
  unfold waitSR2
  rw [if_pos hflag]

theorem pollSR1_ready (bit timeout counter : Nat) (h : I2C_TypeDef) (hr : BusReady h)
    (hbit : bit = 1 ∨ bit = 2) : pollSR1 bit timeout counter h = (0, h.readSR1.2) := by
  have hflag : h.readSR1.1 &&& (1 <<< bit) ≠ 0 := by
    have := hr.1 h.sr1_reads
    rcases hbit with rfl | rfl
    · exact this.2.1
    · exact this.2.2.1
  unfold pollSR1
  rw [if_pos hflag]

theorem I2C_writeSlaveAddress_ready (address timeout : Nat) (h : I2C_TypeDef)
    (hr : BusReady h) : (I2C_writeSlaveAddress address timeout h).1 = 0 := by
  unfold I2C_writeSlaveAddress
  rw [pollSR1_ready _ _ _ _ ((Steps.emit _ h).ready hr) (Or.inl rfl)]
  simp

theorem I2C_write_ready (fuel data timeout : Nat) (h : I2C_TypeDef) (hr : BusReady h) :
    ∃ h2, I2C_write (fuel + 1) data timeout h = some (0, h2) := by
  unfold I2C_write
  rw [waitSR1_ready _ _ _ hr (by simp)]
  simp only
  rw [pollSR1_ready _ _ _ _ ((Steps.emit _ _).ready ((Steps.readSR1 h).ready hr)) (Or.inr rfl)]
  simp only [ne_eq, not_true_eq_false, if_false]
  exact ⟨_, rfl⟩

theorem writeMulti_loop_ready (fuel size : Nat) (data : List Nat) (h : I2C_TypeDef)
    (hr : BusReady h) : ∃ h2, writeMulti_loop (fuel + 1) size data h = some h2 := by
  induction size generalizing data h with
  | zero => exact ⟨h, by unfold writeMulti_loop; rfl⟩
  | succ size ih =>
    unfold writeMulti_loop
    rw [waitSR1_ready _ _ _ hr (by simp)]
    exact ih _ _ ((Steps.emit _ _).ready ((Steps.readSR1 h).ready hr))

theorem I2C_writeMulti_ready (fuel : Nat) (data : List Nat) (size timeout : Nat)
    (h : I2C_TypeDef) (hr : BusReady h) :
    ∃ h2, I2C_writeMulti (fuel + 1) data size timeout h = some (0, h2) := by
  unfold I2C_writeMulti
  rw [waitSR1_ready _ _ _ hr (by simp)]
  simp only
  obtain ⟨h2, hl⟩ := writeMulti_loop_ready fuel size data _ ((Steps.readSR1 h).ready hr)
  rw [hl]
  simp only
  rw [pollSR1_ready _ _ _ _ ((writeMulti_loop_steps _ _ _ _ _ hl).ready
    ((Steps.readSR1 h).ready hr)) (Or.inr rfl)]
  simp only [ne_eq, not_true_eq_false, if_false]
  exact ⟨_, rfl⟩

theorem beginTransfer_ready (fuel memAddress : Nat) (h : I2C_TypeDef) (hr : BusReady h) :
    ∃ h2, beginTransfer (fuel + 1) memAddress 1 h = some (0, h2) := by
  have r1 : BusReady (h.emit BusEvent.START) := (Steps.emit _ h).ready hr
  have r2 := (Steps.readSR1 _).ready r1
  have r3 := (Steps.readSR2 _).ready r2
  have ha := I2C_writeSlaveAddress_ready SSD1306_I2C_ADDR TIMEOUT_MS _ r3
  have r4 := (I2C_writeSlaveAddress_steps SSD1306_I2C_ADDR TIMEOUT_MS _).1.ready r3
  have r5 := (Steps.readSR1 _).ready r4
  have r6 := (Steps.emit (BusEvent.DR (I2C_MEM_ADD_LSB memAddress)) _).ready r5
  unfold beginTransfer I2C_start
  rw [waitSR1_ready _ _ _ r1 (by simp)]
  simp only
  rw [waitSR2_ready _ _ r2]
  simp only
  rw [if_neg (by rw [ha]; simp), waitSR1_ready _ _ _ r4 (by simp)]
  simp only [sendMemAddress, I2C_MEMADD_SIZE_8BIT, if_true]
  rw [waitSR1_ready _ _ _ r6 (by simp)]
  exact ⟨_, rfl⟩

theorem SSD1306_write_ready (fuel data memAddress : Nat) (h : I2C_TypeDef) (hr : BusReady h) :
    ∃ h2, SSD1306_write (fuel + 1) data memAddress 1 h = some (0, h2) ∧ BusReady h2 := by
  obtain ⟨hb, hbe⟩ := beginTransfer_ready fuel memAddress h hr
  have rb : BusReady hb := ((beginTransfer_steps _ _ _ _ hbe).2 rfl).ready hr
  obtain ⟨hw, hwe⟩ := I2C_write_ready fuel data TIMEOUT_MS hb rb
  have he : SSD1306_write (fuel + 1) data memAddress 1 h = some (0, I2C_stop hw) := by
    unfold SSD1306_write
    rw [hbe]
    simp only [ne_eq, not_true_eq_false, if_false]
    rw [hwe]
    simp
  exact ⟨_, he, ((SSD1306_write_steps _ _ _ _ _ he).2 rfl).ready hr⟩

theorem SSD1306_writeMulti_ready (fuel : Nat) (data : List Nat) (size memAddress : Nat)
    (h : I2C_TypeDef) (hr : BusReady h) :
    ∃ h2, SSD1306_writeMulti (fuel + 1) data size memAddress 1 h = some (0, h2) ∧
      BusReady h2 := by
  obtain ⟨hb, hbe⟩ := beginTransfer_ready fuel memAddress h hr
  have rb : BusReady hb := ((beginTransfer_steps _ _ _ _ hbe).2 rfl).ready hr
  obtain ⟨hw, hwe⟩ := I2C_writeMulti_ready fuel data size TIMEOUT_MS hb rb
  have he : SSD1306_writeMulti (fuel + 1) data size memAddress 1 h
      = some (0, I2C_stop hw) := by
    unfold SSD1306_writeMulti
    rw [hbe]
    simp only [ne_eq, not_true_eq_false, if_false]
    rw [hwe]
    simp
  exact ⟨_, he, ((SSD1306_writeMulti_steps _ _ _ _ _ _ he).2 rfl).ready hr⟩

theorem update_page_ready (fuel : Nat) (buf : List Nat) (h : I2C_TypeDef) (i : Nat)
    (hr : BusReady h) :
    ∃ h2, update_page (fuel + 1) buf (0, h) i = some (0, h2) ∧ BusReady h2 := by
  obtain ⟨h1, e1, r1⟩ := SSD1306_write_ready fuel ((0xB0 + i) % 256) SSD1306_WRITE_COMMAND h hr
  obtain ⟨h2, e2, r2⟩ := SSD1306_write_ready fuel 0x00 SSD1306_WRITE_COMMAND h1 r1
  obtain ⟨h3, e3, r3⟩ := SSD1306_write_ready fuel 0x10 SSD1306_WRITE_COMMAND h2 r2
  obtain ⟨h4, e4, r4⟩ := SSD1306_writeMulti_ready fuel (buf.drop (SSD1306_WIDTH * i))
    (SSD1306_WIDTH % 256) SSD1306_WRITE_DATA h3 r3
  refine ⟨h4, ?_, r4⟩
  unfold update_page
  simp only
  rw [e1]
  simp only
  rw [e2]
  simp only
  rw [e3]
  simp only
  rw [e4]
  rfl

theorem update_fold_ready (fuel : Nat) (buf : List Nat) (ps : List Nat) (h : I2C_TypeDef)
    (hr : BusReady h) :
    ∃ h2, ps.foldlM (update_page (fuel + 1) buf) (0, h) = some (0, h2) := by
  induction ps generalizing h with
  | nil => exact ⟨h, rfl⟩
  | cons p ps ih =>
    obtain ⟨h1, e1, r1⟩ := update_page_ready fuel buf h p hr
    obtain ⟨h2, e2⟩ := ih h1 r1
    exact ⟨h2, by rw [List.foldlM_cons, e1]; simpa using e2⟩

/-- On an always-ready bus a flush with at least one poll of fuel returns 0. -/
theorem SSD1306_update_ready (fuel : Nat) (m : Machine) (hr : BusReady m.I2C1) :
    ∃ m2, SSD1306_update (fuel + 1) m = some (0, m2) := by
  obtain ⟨h2, e2⟩ := update_fold_ready fuel m.SSD1306_Buffer (List.range 8) m.I2C1 hr
  exact ⟨_, by unfold SSD1306_update; rw [e2]⟩
theorem readyBus_ready : BusReady readyBus := by
  constructor
  · intro n; simp only [readyBus]; decide
  · intro n; simp only [readyBus]; decide

theorem getD_replicate (n v i : Nat) (h : i < n) : (List.replicate n v).getD i 0 = v := by
  rw [List.getD_eq_getElem?_getD, List.getElem?_replicate, if_pos h]; rfl

theorem payload_replicate (v p : Nat) (hp : p < 8) :
    (List.range 128).map (fun k => (List.replicate 1024 v).getD (128 * p + k) 0)
      = List.replicate 128 v := by
  rw [List.eq_replicate_iff]
  refine ⟨by rw [List.length_map, List.length_range], ?_⟩
  intro b hb
  rw [List.mem_map] at hb
  obtain ⟨k, hk, rfl⟩ := hb
  rw [List.mem_range] at hk
  exact getD_replicate _ _ _ (by omega)

/-- The data bursts of a flush of a uniformly filled framebuffer carry 1024 equal bytes. -/
theorem dataBytes_flush_replicate (v : Nat) :
    dataBytes (flushTransactions (List.replicate 1024 v)) = List.replicate 1024 v := by
  have h8 : List.range 8 = [0, 1, 2, 3, 4, 5, 6, 7] := rfl
  simp only [dataBytes, flushTransactions, h8, List.flatMap_cons, List.flatMap_nil,
    pageTransactions, List.cons_append, List.nil_append, List.append_nil]
  rw [payload_replicate v 0 (by omega), payload_replicate v 1 (by omega),
    payload_replicate v 2 (by omega), payload_replicate v 3 (by omega),
    payload_replicate v 4 (by omega), payload_replicate v 5 (by omega),
    payload_replicate v 6 (by omega), payload_replicate v 7 (by omega)]
  simp [List.filter_cons]

theorem flushTransactions_address (buf : List Nat) (t : Transaction)
    (ht : t ∈ flushTransactions buf) : t.address = 0x78 := by
  simp only [flushTransactions, List.mem_flatMap, pageTransactions, List.mem_cons,
    List.mem_singleton, List.not_mem_nil, or_false] at ht
  obtain ⟨p, _, h | h | h | h⟩ := ht <;> rw [h]

/-- C10: on a bus on which every polled flag is set, `SSD1306_update` (with at least one
poll of fuel) returns 0, leaves framebuffer, cursor and sprite unchanged, and puts on the
wire exactly the events of `flushTransactions`: for each page `p = 0 .. 7` three command
writes (control byte `0x00`) carrying `0xB0 + p`, `0x00`, `0x10` and one data burst
(control byte `0x40`) carrying the framebuffer bytes `128 * p .. 128 * p + 127` in order.
The same holds on any bus for any run of `SSD1306_update` that returns 0. These are 32
transactions, all to address `0x78`; after `SSD1306_fill BLACK` on a 1024-byte
framebuffer the data bursts carry 1024 bytes `0x00`. -/
theorem SSD1306_update_issues_32_transactions (fuel : Nat) (m : Machine) :
    (BusReady m.I2C1 →
      ∃ m2, SSD1306_update (fuel + 1) m = some (0, m2) ∧
        m2.I2C1.wire
          = m.I2C1.wire ++ (flushTransactions m.SSD1306_Buffer).flatMap Transaction.events ∧
        m2.SSD1306_Buffer = m.SSD1306_Buffer ∧ m2.SSD1306 = m.SSD1306) ∧
    (∀ m2, SSD1306_update fuel m = some (0, m2) →
      m2.I2C1.wire
        = m.I2C1.wire ++ (flushTransactions m.SSD1306_Buffer).flatMap Transaction.events ∧
      m2.SSD1306_Buffer = m.SSD1306_Buffer ∧ m2.SSD1306 = m.SSD1306 ∧
      m2.lastImg = m.lastImg) ∧
    (flushTransactions m.SSD1306_Buffer).length = 32 ∧
    (∀ t ∈ flushTransactions m.SSD1306_Buffer, t.address = 0x78) ∧
    (m.SSD1306_Buffer.length = 1024 →
      dataBytes (flushTransactions (SSD1306_fill BLACK m).SSD1306_Buffer)
        = List.replicate 1024 0x00) := by
  refine ⟨fun hr => ?_, fun m2 h2 => ?_, rfl, flushTransactions_address _, fun hlen => ?_⟩
  · obtain ⟨m2, h2⟩ := SSD1306_update_ready fuel m hr
    have hs := SSD1306_update_steps _ _ _ h2
    exact ⟨m2, h2, (hs.2.2.2.2 rfl).2.2, hs.1, hs.2.1⟩
  · have hs := SSD1306_update_steps _ _ _ h2
    exact ⟨(hs.2.2.2.2 rfl).2.2, hs.1, hs.2.1, hs.2.2.1⟩
  · have hB := fill_buffer BLACK m hlen
    simp only [if_true] at hB
    rw [hB, dataBytes_flush_replicate]

/-- Witness of C10: the cleared machine on the always-ready bus, one poll of fuel. -/
theorem SSD1306_update_issues_32_transactions_witness :
    BusReady machine0.I2C1 ∧ machine0.SSD1306_Buffer.length = 1024 ∧
    (∃ m2, SSD1306_update 1 machine0 = some (0, m2) ∧
      m2.I2C1.wire = machine0.I2C1.wire ++
        (flushTransactions machine0.SSD1306_Buffer).flatMap Transaction.events ∧
      m2.SSD1306_Buffer = machine0.SSD1306_Buffer ∧ m2.SSD1306 = machine0.SSD1306) ∧
    dataBytes (flushTransactions (SSD1306_fill BLACK machine0).SSD1306_Buffer)
      = List.replicate 1024 0x00 :=
  ⟨readyBus_ready, machine0_length,
    (SSD1306_update_issues_32_transactions 0 machine0).1 readyBus_ready,
    (SSD1306_update_issues_32_transactions 0 machine0).2.2.2.2 machine0_length⟩

/-! ## Animation callbacks -/

theorem writeImg_xpos_init (Img : ImgDef) (c : SSD1306_COLOR) (m : Machine) :
    (SSD1306_writeImg Img c m).SSD1306.xpos_init = m.SSD1306.xpos := by
  unfold SSD1306_writeImg
  simp only
  split_ifs
  · rfl
  · rw [foldl_preserves (blitSection Img c) (fun m : Machine => m.SSD1306.xpos_init)
      (fun a b => by simp only [blitSection_SSD1306])]

theorem writeImg_ypos_init (Img : ImgDef) (c : SSD1306_COLOR) (m : Machine) :
    (SSD1306_writeImg Img c m).SSD1306.ypos_init = m.SSD1306.ypos := by
  unfold SSD1306_writeImg
  simp only
  split_ifs
  · rfl
  · rw [foldl_preserves (blitSection Img c) (fun m : Machine => m.SSD1306.ypos_init)
      (fun a b => by simp only [blitSection_SSD1306])]

theorem writeImg_I2C1 (Img : ImgDef) (c : SSD1306_COLOR) (m : Machine) :
    (SSD1306_writeImg Img c m).I2C1 = m.I2C1 := by
  unfold SSD1306_writeImg
  simp only
  split_ifs
  · rfl
  · rw [blitSections_I2C1]

/-- The x position at which `SSD1306_moveImageRight` redraws, which is `xpos_init` after
the call. -/
theorem moveImageRight_xpos_init (fuel : Nat) (m mR : Machine)
    (h : SSD1306_moveImageRight fuel m = some mR) :
    mR.SSD1306.xpos_init
      = if SSD1306_WIDTH ≤ (m.SSD1306.xpos_init + IMG_STEP_X) % 65536
        then SSD1306_WIDTH - IMG_STEP_X
        else (m.SSD1306.xpos_init + IMG_STEP_X) % 65536 := by
  unfold SSD1306_moveImageRight at h
  simp only [Option.map_eq_some'] at h
  obtain ⟨r, hr, rfl⟩ := h
  rw [(SSD1306_update_steps _ _ _ hr).2.1, writeImg_xpos_init, fill_SSD1306]
  simp only [ge_iff_le]
  split_ifs <;> rfl

/-- The x position at which `SSD1306_moveImageLeft` redraws, which is `xpos_init` after
the call. -/
theorem moveImageLeft_xpos_init (fuel : Nat) (m mL : Machine)
    (h : SSD1306_moveImageLeft fuel m = some mL) :
    mL.SSD1306.xpos_init
      = if (((m.SSD1306.xpos_init : Int) - (IMG_STEP_X : Int)) % 65536).toNat ≤ 0 ∨
           SSD1306_WIDTH ≤ (((m.SSD1306.xpos_init : Int) - (IMG_STEP_X : Int)) % 65536).toNat
        then 0 + IMG_STEP_X
        else (((m.SSD1306.xpos_init : Int) - (IMG_STEP_X : Int)) % 65536).toNat := by
  unfold SSD1306_moveImageLeft at h
  simp only [Option.map_eq_some'] at h
  obtain ⟨r, hr, rfl⟩ := h
  rw [(SSD1306_update_steps _ _ _ hr).2.1, writeImg_xpos_init, fill_SSD1306]
  simp only [ge_iff_le]
  split_ifs <;> rfl

theorem moveImageRight_ready (fuel : Nat) (m : Machine) (hr : BusReady m.I2C1) :
    ∃ mR, SSD1306_moveImageRight (fuel + 1) m = some mR := by
  unfold SSD1306_moveImageRight
  simp only
  have hb : ∀ m4 : Machine, m4.I2C1 = m.I2C1 →
      ∃ mR, Option.map Prod.snd (SSD1306_update (fuel + 1) m4) = some mR := by
    intro m4 h4
    obtain ⟨m2, h2⟩ := SSD1306_update_ready fuel m4 (by rw [h4]; exact hr)
    exact ⟨m2, by rw [h2]; rfl⟩
  apply hb
  rw [writeImg_I2C1, fill_I2C1]
  split_ifs <;> rfl

theorem moveImageLeft_ready (fuel : Nat) (m : Machine) (hr : BusReady m.I2C1) :
    ∃ mL, SSD1306_moveImageLeft (fuel + 1) m = some mL := by
  unfold SSD1306_moveImageLeft
  simp only
  have hb : ∀ m4 : Machine, m4.I2C1 = m.I2C1 →
      ∃ mL, Option.map Prod.snd (SSD1306_update (fuel + 1) m4) = some mL := by
    intro m4 h4
    obtain ⟨m2, h2⟩ := SSD1306_update_ready fuel m4 (by rw [h4]; exact hr)
    exact ⟨m2, by rw [h2]; rfl⟩
  apply hb
  rw [writeImg_I2C1, fill_I2C1]
  split_ifs <;> rfl
/-- C9 as stated fails: from `x_init = 120` `SSD1306_moveImageRight` redraws at
`x = 125`, above `W - STEP = 123`, and from `x_init = 6` `SSD1306_moveImageLeft` redraws
at `x = 1`, below `STEP = 5` (always-ready bus, one poll of fuel). -/
theorem moveImage_x_outside_step_margins :
    (∃ mR, SSD1306_moveImageRight 1 (machineAt 120 10) = some mR ∧
      mR.SSD1306.xpos_init = 125 ∧
      ¬ (IMG_STEP_X ≤ mR.SSD1306.xpos_init ∧
         mR.SSD1306.xpos_init ≤ SSD1306_WIDTH - IMG_STEP_X)) ∧
    (∃ mL, SSD1306_moveImageLeft 1 (machineAt 6 10) = some mL ∧
      mL.SSD1306.xpos_init = 1 ∧
      ¬ (IMG_STEP_X ≤ mL.SSD1306.xpos_init ∧
         mL.SSD1306.xpos_init ≤ SSD1306_WIDTH - IMG_STEP_X)) := by
  constructor
  · obtain ⟨mR, hR⟩ := moveImageRight_ready 0 (machineAt 120 10) readyBus_ready
    have hx : mR.SSD1306.xpos_init = 125 := by
      rw [moveImageRight_xpos_init _ _ _ hR]; decide
    exact ⟨mR, hR, hx, by rw [hx]; decide⟩
  · obtain ⟨mL, hL⟩ := moveImageLeft_ready 0 (machineAt 6 10) readyBus_ready
    have hx : mL.SSD1306.xpos_init = 1 := by
      rw [moveImageLeft_xpos_init _ _ _ hL]; decide
    exact ⟨mL, hL, hx, by rw [hx]; decide⟩

/-- C9, amended: for every prior cursor state the x position at which
`SSD1306_moveImageRight` redraws the sprite (the new `xpos_init`) is below `W = 128`, and
it is at least `STEP = 5` whenever `x_init + STEP` does not wrap around 16 bits; the x
position at which `SSD1306_moveImageLeft` redraws lies in `[1, 127]`. Both calls return
on an always-ready bus with at least one poll of fuel. -/
theorem moveImage_x_within_panel (fuel : Nat) (m : Machine) :
    (∀ mR, SSD1306_moveImageRight fuel m = some mR →
      mR.SSD1306.xpos_init < SSD1306_WIDTH ∧
      (m.SSD1306.xpos_init + IMG_STEP_X < 65536 → IMG_STEP_X ≤ mR.SSD1306.xpos_init)) ∧
    (∀ mL, SSD1306_moveImageLeft fuel m = some mL →
      1 ≤ mL.SSD1306.xpos_init ∧ mL.SSD1306.xpos_init < SSD1306_WIDTH) ∧
    (BusReady m.I2C1 →
      (∃ mR, SSD1306_moveImageRight (fuel + 1) m = some mR) ∧
      (∃ mL, SSD1306_moveImageLeft (fuel + 1) m = some mL)) := by
  refine ⟨fun mR hR => ?_, fun mL hL => ?_, fun hr =>
    ⟨moveImageRight_ready fuel m hr, moveImageLeft_ready fuel m hr⟩⟩
  · rw [moveImageRight_xpos_init _ _ _ hR]
    simp only [SSD1306_WIDTH, IMG_STEP_X]
    split_ifs <;> omega
  · rw [moveImageLeft_xpos_init _ _ _ hL]
    simp only [SSD1306_WIDTH, IMG_STEP_X]
    split_ifs <;> omega

/-- Witness of the amended C9: the machine with the run origin at `(120, 10)` on the
always-ready bus. -/
theorem moveImage_x_within_panel_witness :
    BusReady (machineAt 120 10).I2C1 ∧
    (∃ mR, SSD1306_moveImageRight 1 (machineAt 120 10) = some mR ∧
      mR.SSD1306.xpos_init < SSD1306_WIDTH) ∧
    (∃ mL, SSD1306_moveImageLeft 1 (machineAt 120 10) = some mL ∧
      1 ≤ mL.SSD1306.xpos_init ∧ mL.SSD1306.xpos_init < SSD1306_WIDTH) :=
  ⟨readyBus_ready,
    (((moveImage_x_within_panel 0 (machineAt 120 10)).2.2 readyBus_ready).1).elim
      (fun mR hR => ⟨mR, hR, ((moveImage_x_within_panel 1 (machineAt 120 10)).1 mR hR).1⟩),
    (((moveImage_x_within_panel 0 (machineAt 120 10)).2.2 readyBus_ready).2).elim
      (fun mL hL => ⟨mL, hL, (moveImage_x_within_panel 1 (machineAt 120 10)).2.1 mL hL⟩)⟩
/-! ## Bounded polling -/

theorem readSR1_eq (h : I2C_TypeDef) :
    h.readSR1.2 = { h with sr1_reads := h.sr1_reads + 1 } := rfl

/-- The poll loop leaves with 1 after `timeout - counter + 1` polls when none of them
sees the flag. -/
theorem pollSR1_timeout (bit timeout counter : Nat) (h : I2C_TypeDef)
    (hc : counter ≤ timeout)
    (hnone : ∀ j, j ≤ timeout - counter → ¬ flagAt h bit j) :
    pollSR1 bit timeout counter h
      = (1, { h with sr1_reads := h.sr1_reads + (timeout - counter) + 1 }) := by
  generalize hn : timeout - counter = n
  induction n generalizing counter h with
  | zero =>
    have h0 : ¬ (h.readSR1.1 &&& (1 <<< bit) ≠ 0) := by
      simpa [flagAt, I2C_TypeDef.readSR1] using hnone 0 (Nat.zero_le _)
    unfold pollSR1
    rw [if_neg h0, if_pos (by omega)]
    rfl
  | succ n ih =>
    have h0 : ¬ (h.readSR1.1 &&& (1 <<< bit) ≠ 0) := by
      simpa [flagAt, I2C_TypeDef.readSR1] using hnone 0 (Nat.zero_le _)
    unfold pollSR1
    rw [if_neg h0, if_neg (by omega)]
    have hnone2 : ∀ j, j ≤ timeout - (counter + 1) → ¬ flagAt h.readSR1.2 bit j := by
      intro j hj
      have := hnone (j + 1) (by omega)
      simpa [flagAt, I2C_TypeDef.readSR1, Nat.add_assoc, Nat.add_comm 1 j] using this
    rw [ih (counter + 1) h.readSR1.2 (by omega) hnone2 (by omega)]
    simp only [I2C_TypeDef.readSR1, Prod.mk.injEq, true_and]
    congr 1
    omega

theorem waitSR1_noAck (bit fuel : Nat) (h : I2C_TypeDef) (hr : NoAck h)
    (hbit : bit = 0 ∨ bit = 7) : waitSR1 bit (fuel + 1) h = some h.readSR1.2 := by
  have hflag : h.readSR1.1 &&& (1 <<< bit) ≠ 0 := by
    have := hr.1 h.sr1_reads
    rcases hbit with rfl | rfl
    · exact this.1
    · exact this.2.1
  unfold waitSR1
  rw [if_pos hflag]

theorem noAckBus_noAck : NoAck noAckBus := by
  constructor
  · intro n; simp only [noAckBus]; decide
  · intro n; simp only [noAckBus]; decide

theorem runOps_append (a b : List BusOp) (h : I2C_TypeDef) :
    runOps (a ++ b) h =
      match runOps a h with
      | none => none
      | some ra =>
        match runOps b ra.2 with
        | none => none
        | some rb => some (ra.1 ++ rb.1, rb.2) := by
  induction a generalizing h with
  | nil =>
    simp only [List.nil_append, runOps]
    cases runOps b h <;> rfl
  | cons op a ih =>
    rw [List.cons_append, runOps, runOps]
    cases op h with
    | none => rfl
    | some r =>
      simp only
      rw [ih]
      cases runOps a r.2 with
      | none => rfl
      | some ra =>
        simp only
        cases runOps b ra.2 with
        | none => rfl
        | some rb => rfl

/-- One pass of the page loop adds the results of its four writes to the accumulator. -/
theorem update_page_eq_runOps (fuel : Nat) (buf : List Nat) (acc : Nat × I2C_TypeDef)
    (i : Nat) :
    update_page fuel buf acc i
      = (runOps (pageOps fuel buf i) acc.2).map
          (fun p => ((acc.1 + p.1.sum) % 256, p.2)) := by
  unfold update_page pageOps
  simp only [runOps]
  cases SSD1306_write fuel ((0xB0 + i) % 256) SSD1306_WRITE_COMMAND 1 acc.2 with
  | none => rfl
  | some r1 =>
    simp only
    cases SSD1306_write fuel 0x00 SSD1306_WRITE_COMMAND 1 r1.2 with
    | none => rfl
    | some r2 =>
      simp only
      cases SSD1306_write fuel 0x10 SSD1306_WRITE_COMMAND 1 r2.2 with
      | none => rfl
      | some r3 =>
        simp only
        cases SSD1306_writeMulti fuel (buf.drop (SSD1306_WIDTH * i)) (SSD1306_WIDTH % 256)
            SSD1306_WRITE_DATA 1 r3.2 with
        | none => rfl
        | some r4 =>
          simp only [Option.map_some', List.sum_cons, List.sum_nil, Option.some.injEq,
            Prod.mk.injEq, and_true]
          omega

theorem update_fold_eq_runOps (fuel : Nat) (buf : List Nat) (ps : List Nat)
    (acc : Nat × I2C_TypeDef) (hacc : acc.1 < 256) :
    ps.foldlM (update_page fuel buf) acc
      = (runOps (ps.flatMap (pageOps fuel buf)) acc.2).map
          (fun p => ((acc.1 + p.1.sum) % 256, p.2)) := by
  induction ps generalizing acc with
  | nil =>
    simp only [List.foldlM_nil, List.flatMap_nil, runOps, Option.map_some', List.sum_nil,
      Nat.add_zero, Nat.mod_eq_of_lt hacc]
    rfl
  | cons p ps ih =>
    rw [List.foldlM_cons, List.flatMap_cons, runOps_append, update_page_eq_runOps]
    cases runOps (pageOps fuel buf p) acc.2 with
    | none => rfl
    | some ra =>
      simp only [Option.map_some', Option.bind_eq_bind, Option.some_bind]
      rw [ih _ (Nat.mod_lt _ (by norm_num))]
      cases runOps (ps.flatMap (pageOps fuel buf)) ra.2 with
      | none => rfl
      | some rb =>
        simp only [Option.map_some', List.sum_append, Option.some.injEq, Prod.mk.injEq,
          and_true]
        omega

/-- The value `SSD1306_update` returns is the sum, modulo 256, of the results of its 32
bus writes. -/
theorem SSD1306_update_eq_runOps (fuel : Nat) (m : Machine) :
    SSD1306_update fuel m
      = (runOps (flushOps fuel m.SSD1306_Buffer) m.I2C1).map
          (fun p => (p.1.sum % 256, { m with I2C1 := p.2 })) := by
  unfold SSD1306_update flushOps
  rw [update_fold_eq_runOps _ _ _ _ (Nat.zero_lt_succ 255)]
  cases runOps ((List.range 8).flatMap (pageOps fuel m.SSD1306_Buffer)) m.I2C1 with
  | none => rfl
  | some r => simp

/-- The results of a sequence of calls that each return 0 or 1. -/
theorem runOps_results (ops : List BusOp)
    (hops : ∀ op ∈ ops, ∀ h r, op h = some r → r.1 ≤ 1)
    (h : I2C_TypeDef) (rs : List Nat × I2C_TypeDef) (hrun : runOps ops h = some rs) :
    rs.1.length = ops.length ∧ ∀ x ∈ rs.1, x ≤ 1 := by
  induction ops generalizing h rs with
  | nil =>
    simp only [runOps, Option.some.injEq] at hrun
    rw [← hrun]
    exact ⟨rfl, fun x hx => by simp at hx⟩
  | cons op ops ih =>
    simp only [runOps] at hrun
    cases h1 : op h with
    | none => rw [h1] at hrun; simp at hrun
    | some r =>
      rw [h1] at hrun
      simp only at hrun
      cases h2 : runOps ops r.2 with
      | none => rw [h2] at hrun; simp at hrun
      | some rs2 =>
        rw [h2] at hrun
        simp only [Option.some.injEq] at hrun
        rw [← hrun]
        have hi := ih (fun op hop => hops op (List.mem_cons_of_mem _ hop)) r.2 rs2 h2
        refine ⟨by simp [hi.1], ?_⟩
        intro x hx
        rcases List.mem_cons.mp hx with rfl | hx
        · exact hops op (List.mem_cons_self _ _) h r h1
        · exact hi.2 x hx

/-- A sum of zeros and ones counts the ones. -/
theorem sum_eq_count_failures (rs : List Nat) (h01 : ∀ x ∈ rs, x ≤ 1) :
    rs.sum = (rs.filter (fun x => x ≠ 0)).length ∧ rs.sum ≤ rs.length ∧
    (rs.sum = 0 ↔ ∀ x ∈ rs, x = 0) := by
  induction rs with
  | nil => simp
  | cons x rs ih =>
    have hx := h01 x (List.mem_cons_self _ _)
    have hi := ih (fun y hy => h01 y (List.mem_cons_of_mem _ hy))
    have hx01 : x = 0 ∨ x = 1 := by omega
    rcases hx01 with rfl | rfl
    · refine ⟨by simpa using hi.1, by simp only [List.sum_cons, List.length_cons]; omega, ?_⟩
      simp only [List.sum_cons, Nat.zero_add, List.mem_cons, forall_eq_or_imp, true_and]
      exact hi.2.2
    · refine ⟨by simp [hi.1, Nat.add_comm], by simp only [List.sum_cons, List.length_cons]; omega, ?_⟩
      simp only [List.sum_cons, List.mem_cons, forall_eq_or_imp]
      constructor
      · intro h; omega
      · intro h; exact absurd h.1 (by decide)

theorem flushOps_zero_or_one (fuel : Nat) (buf : List Nat) :
    ∀ op ∈ flushOps fuel buf, ∀ h r, op h = some r → r.1 ≤ 1 := by
  intro op hop h r hr
  simp only [flushOps, List.mem_flatMap, pageOps, List.mem_cons, List.mem_singleton,
    List.not_mem_nil, or_false] at hop
  obtain ⟨i, _, rfl | rfl | rfl | rfl⟩ := hop
  · exact (SSD1306_write_steps _ _ _ _ _ hr).1
  · exact (SSD1306_write_steps _ _ _ _ _ hr).1
  · exact (SSD1306_write_steps _ _ _ _ _ hr).1
  · exact (SSD1306_writeMulti_steps _ _ _ _ _ _ hr).1

/-- C14: summing the step results never masks a failure in the flush. For every outcome
`rs` of the 32 bus writes of `SSD1306_update` (each is 0 or 1), the call returns the
number of failed writes, which is at most 32 and therefore not reduced by the 8-bit
accumulator, and it returns 0 if and only if all 32 writes returned 0. Every run of
`SSD1306_update` that returns is of this kind: its result is the sum of the results of
the 32 writes modulo 256. -/
theorem SSD1306_update_counts_failures (fuel : Nat) (m : Machine) (rs : List Nat)
    (h2 : I2C_TypeDef)
    (hrun : runOps (flushOps fuel m.SSD1306_Buffer) m.I2C1 = some (rs, h2)) :
    rs.length = 32 ∧ (∀ x ∈ rs, x = 0 ∨ x = 1) ∧
    SSD1306_update fuel m
      = some ((rs.filter (fun x => x ≠ 0)).length, { m with I2C1 := h2 }) ∧
    (rs.filter (fun x => x ≠ 0)).length ≤ 32 ∧
    ((rs.filter (fun x => x ≠ 0)).length = 0 ↔ ∀ x ∈ rs, x = 0) ∧
    SSD1306_update fuel m
      = (runOps (flushOps fuel m.SSD1306_Buffer) m.I2C1).map
          (fun p => (p.1.sum % 256, { m with I2C1 := p.2 })) := by
  have hres := runOps_results _ (flushOps_zero_or_one fuel m.SSD1306_Buffer) _ _ hrun
  have hlen : rs.length = 32 := hres.1
  have h01 : ∀ x ∈ rs, x ≤ 1 := hres.2
  have hsum := sum_eq_count_failures rs h01
  have hle : rs.sum ≤ 32 := by rw [← hlen]; exact hsum.2.1
  refine ⟨hlen, fun x hx => by have := h01 x hx; omega, ?_, by rw [← hsum.1]; exact hle,
    by rw [← hsum.1]; exact hsum.2.2, SSD1306_update_eq_runOps fuel m⟩
  rw [SSD1306_update_eq_runOps, hrun, ← hsum.1]
  simp only [Option.map_some', Option.some.injEq, Prod.mk.injEq, and_true]
  exact Nat.mod_eq_of_lt (by omega)

/-! ## The bus: no device answers -/

theorem Steps.noAck {h h2 : I2C_TypeDef} {evs : List BusEvent} (a : Steps h h2 evs)
    (hr : NoAck h) : NoAck h2 := by
  unfold NoAck at *
  rw [a.1, a.2.1]
  exact hr

theorem waitSR2_noAck (fuel : Nat) (h : I2C_TypeDef) (hr : NoAck h) :
    waitSR2 1 (fuel + 1) h = some h.readSR2.2 := by
  have hflag : h.readSR2.1 &&& (1 <<< 1) ≠ 0 := hr.2 h.sr2_reads
  unfold waitSR2
  rw [if_pos hflag]

theorem I2C_writeSlaveAddress_noAck (address timeout : Nat) (h : I2C_TypeDef)
    (hr : NoAck h) : (I2C_writeSlaveAddress address timeout h).1 = 1 := by
  have hno : ∀ j, j ≤ timeout - 0 → ¬ flagAt (h.emit (BusEvent.DR address)) 1 j := by
    intro j _ hf
    exact hf ((hr.1 _).2.2)
  unfold I2C_writeSlaveAddress
  rw [pollSR1_timeout 1 timeout 0 _ (Nat.zero_le _) hno]
  simp

theorem beginTransfer_noAck (fuel memAddress memSize : Nat) (h : I2C_TypeDef)
    (hr : NoAck h) :
    ∃ h2, beginTransfer (fuel + 1) memAddress memSize h = some (1, h2) ∧ NoAck h2 := by
  have r1 : NoAck (h.emit BusEvent.START) := (Steps.emit _ h).noAck hr
  have r2 := (Steps.readSR1 _).noAck r1
  have r3 := (Steps.readSR2 _).noAck r2
  have ha := I2C_writeSlaveAddress_noAck SSD1306_I2C_ADDR TIMEOUT_MS _ r3
  have r4 := (I2C_writeSlaveAddress_steps SSD1306_I2C_ADDR TIMEOUT_MS _).1.noAck r3
  refine ⟨_, ?_, r4⟩
  unfold beginTransfer I2C_start
  rw [waitSR1_noAck _ _ _ r1 (Or.inl rfl)]
  simp only
  rw [waitSR2_noAck _ _ r2]
  simp only
  rw [if_pos (by rw [ha]; decide)]
  exact congrArg some (Prod.ext ha rfl)

theorem SSD1306_write_noAck (fuel data memAddress memSize : Nat) (h : I2C_TypeDef)
    (hr : NoAck h) :
    ∃ h2, SSD1306_write (fuel + 1) data memAddress memSize h = some (1, h2) ∧ NoAck h2 := by
  obtain ⟨h2, he, hn⟩ := beginTransfer_noAck fuel memAddress memSize h hr
  refine ⟨h2, ?_, hn⟩
  unfold SSD1306_write
  rw [he]
  simp

theorem SSD1306_writeMulti_noAck (fuel : Nat) (data : List Nat)
    (size memAddress memSize : Nat) (h : I2C_TypeDef) (hr : NoAck h) :
    ∃ h2, SSD1306_writeMulti (fuel + 1) data size memAddress memSize h = some (1, h2) ∧
      NoAck h2 := by
  obtain ⟨h2, he, hn⟩ := beginTransfer_noAck fuel memAddress memSize h hr
  refine ⟨h2, ?_, hn⟩
  unfold SSD1306_writeMulti
  rw [he]
  simp

/-- Without a device every call of a sequence of bus writes returns 1. -/
theorem runOps_noAck (ops : List BusOp)
    (hops : ∀ op ∈ ops, ∀ h, NoAck h → ∃ h2, op h = some (1, h2) ∧ NoAck h2)
    (h : I2C_TypeDef) (hr : NoAck h) :
    ∃ h2, runOps ops h = some (List.replicate ops.length 1, h2) ∧ NoAck h2 := by
  induction ops generalizing h with
  | nil => exact ⟨h, rfl, hr⟩
  | cons op ops ih =>
    obtain ⟨h1, e1, n1⟩ := hops op (List.mem_cons_self _ _) h hr
    obtain ⟨h2, e2, n2⟩ := ih (fun o ho => hops o (List.mem_cons_of_mem _ ho)) h1 n1
    refine ⟨h2, ?_, n2⟩
    rw [runOps, e1]
    simp only
    rw [e2]
    rfl

theorem flushOps_noAck (fuel : Nat) (buf : List Nat) :
    ∀ op ∈ flushOps (fuel + 1) buf, ∀ h, NoAck h → ∃ h2, op h = some (1, h2) ∧ NoAck h2 := by
  intro op hop h hr
  simp only [flushOps, List.mem_flatMap, pageOps, List.mem_cons, List.mem_singleton,
    List.not_mem_nil, or_false] at hop
  obtain ⟨i, _, rfl | rfl | rfl | rfl⟩ := hop
  · exact SSD1306_write_noAck _ _ _ _ h hr
  · exact SSD1306_write_noAck _ _ _ _ h hr
  · exact SSD1306_write_noAck _ _ _ _ h hr
  · exact SSD1306_writeMulti_noAck _ _ _ _ _ h hr

/-- Witness of C14: on the bus without a device all 32 writes of the flush fail and the
flush returns 32. -/
theorem SSD1306_update_counts_failures_witness :
    ∃ h2, runOps (flushOps 1 machineNoAck.SSD1306_Buffer) machineNoAck.I2C1
        = some (List.replicate 32 1, h2) ∧
      SSD1306_update 1 machineNoAck = some (32, { machineNoAck with I2C1 := h2 }) :=
  (runOps_noAck (flushOps 1 machineNoAck.SSD1306_Buffer)
      (flushOps_noAck 0 machineNoAck.SSD1306_Buffer) machineNoAck.I2C1 noAckBus_noAck).elim
    (fun h2 hh => ⟨h2, hh.1,
      (SSD1306_update_counts_failures 1 machineNoAck (List.replicate 32 1) h2 hh.1).2.2.1⟩)

/-! ## Initialisation -/

theorem waitCNT_ticks (us fuel : Nat) (t : TIM_TypeDef)
    (h : ∃ k, k < fuel ∧ us ≤ t.CNT (t.cnt_reads + k)) :
    ∃ t2, waitCNT us fuel t = some t2 ∧ t2.CNT = t.CNT := by
  induction fuel generalizing t with
  | zero => obtain ⟨k, hk, _⟩ := h; omega
  | succ fuel ih =>
    unfold waitCNT
    split_ifs with hlt
    · obtain ⟨k, hk, hge⟩ := h
      have hk0 : k ≠ 0 := by
        rintro rfl
        rw [Nat.add_zero] at hge
        omega
      obtain ⟨t2, h2, hc⟩ := ih { t with cnt_reads := t.cnt_reads + 1 }
        ⟨k - 1, by omega, by
          have : t.cnt_reads + 1 + (k - 1) = t.cnt_reads + k := by omega
          simpa [this] using hge⟩
      exact ⟨t2, h2, hc⟩
    · exact ⟨_, rfl, rfl⟩

theorem Delay_us_ticks (fuel : Nat) (t : TIM_TypeDef) (h : TimerTicks fuel t) :
    ∃ t2, Delay_us fuel 1000 t = some t2 ∧ t2.CNT = t.CNT := by
  unfold Delay_us
  exact waitCNT_ticks 1000 fuel _ (h _)

/-- On a timer that keeps counting `Delay_ms` returns. -/
theorem Delay_ms_ticks (fuel ms : Nat) (t : TIM_TypeDef) (h : TimerTicks fuel t) :
    ∃ t2, Delay_ms fuel ms t = some t2 ∧ t2.CNT = t.CNT := by
  induction ms generalizing t with
  | zero => exact ⟨t, rfl, rfl⟩
  | succ ms ih =>
    obtain ⟨t1, h1, c1⟩ := Delay_us_ticks fuel t h
    obtain ⟨t2, h2, c2⟩ := ih t1 (by unfold TimerTicks at *; rw [c1]; exact h)
    exact ⟨t2, by unfold Delay_ms; rw [h1]; exact h2, c2.trans c1⟩

theorem runningTimer_ticks (fuel : Nat) : TimerTicks (fuel + 1) runningTimer :=
  fun _ => ⟨0, Nat.succ_pos fuel, Nat.le_refl 1000⟩

/-- The command writes of `SSD1306_init` add their results to the accumulator. -/
theorem init_fold_eq_runOps (fuel : Nat) (cmds : List Nat) (acc : Nat × I2C_TypeDef)
    (hacc : acc.1 < 256) :
    cmds.foldlM (init_write fuel) acc
      = (runOps (cmds.map (fun c => SSD1306_write fuel c SSD1306_WRITE_COMMAND 1)) acc.2).map
          (fun p => ((acc.1 + p.1.sum) % 256, p.2)) := by
  induction cmds generalizing acc with
  | nil =>
    simp only [List.foldlM_nil, List.map_nil, runOps, Option.map_some', List.sum_nil,
      Nat.add_zero, Nat.mod_eq_of_lt hacc]
    rfl
  | cons c cmds ih =>
    have hstep : init_write fuel acc c
        = (SSD1306_write fuel c SSD1306_WRITE_COMMAND 1 acc.2).map
            (fun r => ((acc.1 + r.1) % 256, r.2)) := by
      unfold init_write
      cases SSD1306_write fuel c SSD1306_WRITE_COMMAND 1 acc.2 <;> rfl
    rw [List.foldlM_cons, List.map_cons, runOps, hstep]
    cases SSD1306_write fuel c SSD1306_WRITE_COMMAND 1 acc.2 with
    | none => rfl
    | some r =>
      simp only [Option.map_some', Option.bind_eq_bind, Option.some_bind]
      rw [ih _ (Nat.mod_lt _ (by norm_num))]
      cases runOps (cmds.map (fun c => SSD1306_write fuel c SSD1306_WRITE_COMMAND 1)) r.2 with
      | none => rfl
      | some rb =>
        simp only [Option.map_some', List.sum_cons, Option.some.injEq, Prod.mk.injEq,
          and_true]
        omega

theorem cmdOps_zero_or_one (fuel : Nat) (cmds : List Nat) :
    ∀ op ∈ cmds.map (fun c => SSD1306_write fuel c SSD1306_WRITE_COMMAND 1),
      ∀ h r, op h = some r → r.1 ≤ 1 := by
  intro op hop h r hr
  obtain ⟨c, _, rfl⟩ := List.mem_map.mp hop
  exact (SSD1306_write_steps _ _ _ _ _ hr).1

/-- Command writes that all return 0 have put one command transaction each on the wire. -/
theorem cmdOps_steps (fuel : Nat) (cmds : List Nat) (h : I2C_TypeDef)
    (rs : List Nat × I2C_TypeDef)
    (hrun : runOps (cmds.map (fun c => SSD1306_write fuel c SSD1306_WRITE_COMMAND 1)) h
      = some rs)
    (hz : ∀ x ∈ rs.1, x = 0) :
    Steps h rs.2 ((cmds.map (fun c =>
      ({ address := 0x78, control := 0x00, payload := [c] } : Transaction))).flatMap
        Transaction.events) := by
  induction cmds generalizing h rs with
  | nil =>
    simp only [List.map_nil, runOps, Option.some.injEq] at hrun
    rw [← hrun]
    exact Steps.refl h
  | cons c cmds ih =>
    rw [List.map_cons, runOps] at hrun
    cases h1 : SSD1306_write fuel c SSD1306_WRITE_COMMAND 1 h with
    | none => rw [h1] at hrun; simp at hrun
    | some r =>
      rw [h1] at hrun
      simp only at hrun
      cases h2 : runOps (cmds.map (fun c => SSD1306_write fuel c SSD1306_WRITE_COMMAND 1))
          r.2 with
      | none => rw [h2] at hrun; simp at hrun
      | some rs2 =>
        rw [h2] at hrun
        simp only [Option.some.injEq] at hrun
        rw [← hrun] at hz ⊢
        have hr0 : r.1 = 0 := hz r.1 (List.mem_cons_self _ _)
        have hs1 := (SSD1306_write_steps _ _ _ _ _ h1).2 hr0
        have hs2 := ih r.2 rs2 h2 (fun x hx => hz x (List.mem_cons_of_mem _ hx))
        have hc : I2C_MEM_ADD_LSB SSD1306_WRITE_COMMAND = 0x00 := by decide
        rw [hc] at hs1
        simpa [List.flatMap_cons] using hs1.trans hs2

theorem cmdOps_ready (fuel : Nat) (cmds : List Nat) (h : I2C_TypeDef) (hr : BusReady h) :
    ∃ h2, runOps (cmds.map (fun c => SSD1306_write (fuel + 1) c SSD1306_WRITE_COMMAND 1)) h
        = some (List.replicate cmds.length 0, h2) ∧ BusReady h2 := by
  induction cmds generalizing h with
  | nil => exact ⟨h, rfl, hr⟩
  | cons c cmds ih =>
    obtain ⟨h1, e1, r1⟩ := SSD1306_write_ready fuel c SSD1306_WRITE_COMMAND h hr
    obtain ⟨h2, e2, r2⟩ := ih h1 r1
    refine ⟨h2, ?_, r2⟩
    rw [List.map_cons, runOps, e1]
    simp only
    rw [e2]
    rfl

theorem initCommands_transactions :
    initCommands.map (fun c =>
      ({ address := 0x78, control := 0x00, payload := [c] } : Transaction))
      = initTransactions := by
  decide

/-- What a run of `SSD1306_init` that returns 0 has done. -/
theorem SSD1306_init_steps (fuel : Nat) (m m2 : Machine)
    (hlen : m.SSD1306_Buffer.length = 1024)
    (hinit : SSD1306_init fuel m = some (0, m2)) :
    m2.I2C1.wire = m.I2C1.wire ++
      (initTransactions ++ flushTransactions (List.replicate 1024 0x00)).flatMap
        Transaction.events ∧
    m2.SSD1306_Buffer = List.replicate 1024 0x00 ∧
    m2.SSD1306.xpos = 0 ∧ m2.SSD1306.ypos = 0 ∧
    m2.SSD1306.xpos_init = m.SSD1306.xpos_init ∧
    m2.SSD1306.ypos_init = m.SSD1306.ypos_init ∧
    m2.SSD1306.wrap_counter = m.SSD1306.wrap_counter ∧ m2.lastImg = m.lastImg := by
  unfold SSD1306_init at hinit
  cases hd : Delay_ms fuel 100 m.TIM2 with
  | none => rw [hd] at hinit; simp at hinit
  | some t =>
    rw [hd, init_fold_eq_runOps _ _ _ (Nat.zero_lt_succ 255)] at hinit
    simp only at hinit
    cases hrun : runOps (initCommands.map
        (fun c => SSD1306_write fuel c SSD1306_WRITE_COMMAND 1)) m.I2C1 with
    | none => rw [hrun] at hinit; simp at hinit
    | some rs =>
      rw [hrun] at hinit
      simp only [Option.map_some', Nat.zero_add] at hinit
      have hres := runOps_results _ (cmdOps_zero_or_one fuel initCommands) _ _ hrun
      have hsum := sum_eq_count_failures rs.1 hres.2
      split_ifs at hinit with hrv
      · exact absurd (Prod.mk.inj (Option.some.inj hinit)).1 (by decide)
      · have hlen28 : rs.1.length = 28 := hres.1
        have hsum0 : rs.1.sum = 0 := by
          have := hsum.2.1
          have h0 : rs.1.sum % 256 = 0 := not_not.mp hrv
          omega
        have hcmd := cmdOps_steps fuel initCommands m.I2C1 rs hrun (hsum.2.2.mp hsum0)
        rw [initCommands_transactions] at hcmd
        cases hu : SSD1306_update fuel
            (SSD1306_fill BLACK { m with I2C1 := rs.2, TIM2 := t }) with
        | none => rw [hu] at hinit; exact absurd hinit (by simp)
        | some u =>
          rw [hu] at hinit
          simp only at hinit
          have hus := SSD1306_update_steps _ _ _ hu
          split_ifs at hinit with hrv2
          · exact absurd (Prod.mk.inj (Option.some.inj hinit)).1 (by decide)
          · have hu0 : u.1 = 0 := by
              have := hus.2.2.2.1
              have h0 : (rs.1.sum % 256 + u.1) % 256 = 0 := not_not.mp hrv2
              omega
            have hfl := hus.2.2.2.2 hu0
            have hbuf : (SSD1306_fill BLACK { m with I2C1 := rs.2, TIM2 := t }).SSD1306_Buffer
                = List.replicate 1024 0x00 := by
              have := fill_buffer BLACK { m with I2C1 := rs.2, TIM2 := t } hlen
              simp only [if_true] at this
              exact this
            rw [hbuf, fill_I2C1] at hfl
            have hall := hcmd.trans hfl
            simp only [Option.some.injEq, Prod.mk.injEq, true_and] at hinit
            rw [← hinit]
            refine ⟨?_, ?_, rfl, rfl, ?_, ?_, ?_, ?_⟩
            · rw [List.flatMap_append]
              exact hall.2.2
            · exact hus.1.trans hbuf
            · simp only [hus.2.1, fill_SSD1306]
            · simp only [hus.2.1, fill_SSD1306]
            · simp only [hus.2.1, fill_SSD1306]
            · simp only [hus.2.2.1, fill_lastImg]

/-- On an always-ready bus and a timer that keeps counting `SSD1306_init` returns 0. -/
theorem SSD1306_init_ready (fuel : Nat) (m : Machine) (hr : BusReady m.I2C1)
    (ht : TimerTicks (fuel + 1) m.TIM2) :
    ∃ m2, SSD1306_init (fuel + 1) m = some (0, m2) := by
  obtain ⟨t, hd, _⟩ := Delay_ms_ticks (fuel + 1) 100 m.TIM2 ht
  obtain ⟨h2, hrun, hr2⟩ := cmdOps_ready fuel initCommands m.I2C1 hr
  obtain ⟨m3, hu⟩ := SSD1306_update_ready fuel
    (SSD1306_fill BLACK { m with I2C1 := h2, TIM2 := t }) (by rw [fill_I2C1]; exact hr2)
  refine ⟨{ m3 with SSD1306 := { m3.SSD1306 with xpos := 0, ypos := 0 } }, ?_⟩
  unfold SSD1306_init
  rw [hd, init_fold_eq_runOps _ _ _ (Nat.zero_lt_succ 255), hrun]
  have hsum : (List.replicate initCommands.length 0).sum = 0 := by decide
  simp only [Option.map_some', hsum, Nat.zero_add, Nat.zero_mod, ne_eq, not_true_eq_false,
    if_false]
  rw [hu]
  rfl

/-- C11: on a bus on which every polled flag is set (and with a timer that keeps
counting, so that the boot delay ends) `SSD1306_init` returns 0 after putting on the wire
exactly the 28 command transactions `AE 20 10 B0 00 10 C8 40 81 FF A1 A6 A8 3F A4 D3 00 D5
F0 D9 22 DA 12 DB 20 8D 14 AF`, each with its own start, address `0x78`, control byte
`0x00`, one command byte and stop, followed by the 32 transactions of one flush of the
cleared framebuffer; afterwards every framebuffer byte is `0x00` and the cursor is at
`x = 0`, `y = 0`. The same holds on any bus for any run of `SSD1306_init` that returns 0. -/
theorem SSD1306_init_sequence (fuel : Nat) (m : Machine)
    (hlen : m.SSD1306_Buffer.length = 1024) :
    (BusReady m.I2C1 → TimerTicks (fuel + 1) m.TIM2 →
      ∃ m2, SSD1306_init (fuel + 1) m = some (0, m2) ∧
        m2.I2C1.wire = m.I2C1.wire ++
          (initTransactions ++ flushTransactions (List.replicate 1024 0x00)).flatMap
            Transaction.events ∧
        m2.SSD1306_Buffer = List.replicate 1024 0x00 ∧
        m2.SSD1306.xpos = 0 ∧ m2.SSD1306.ypos = 0) ∧
    (∀ m2, SSD1306_init fuel m = some (0, m2) →
      m2.I2C1.wire = m.I2C1.wire ++
        (initTransactions ++ flushTransactions (List.replicate 1024 0x00)).flatMap
          Transaction.events ∧
      m2.SSD1306_Buffer = List.replicate 1024 0x00 ∧
      m2.SSD1306.xpos = 0 ∧ m2.SSD1306.ypos = 0) ∧
    initTransactions.length = 28 ∧
    (∀ t ∈ initTransactions, t.address = 0x78 ∧ t.control = 0x00 ∧ t.payload.length = 1) ∧
    initTransactions.flatMap (fun t => t.payload)
      = [0xAE, 0x20, 0x10, 0xB0, 0x00, 0x10, 0xC8, 0x40, 0x81, 0xFF, 0xA1, 0xA6, 0xA8, 0x3F,
         0xA4, 0xD3, 0x00, 0xD5, 0xF0, 0xD9, 0x22, 0xDA, 0x12, 0xDB, 0x20, 0x8D, 0x14, 0xAF] ∧
    initCommands.map (fun c =>
      ({ address := 0x78, control := 0x00, payload := [c] } : Transaction))
        = initTransactions := by
  refine ⟨fun hr ht => ?_, fun m2 h2 => ?_, rfl, by decide, rfl, initCommands_transactions⟩
  · obtain ⟨m2, h2⟩ := SSD1306_init_ready fuel m hr ht
    have hs := SSD1306_init_steps _ _ _ hlen h2
    exact ⟨m2, h2, hs.1, hs.2.1, hs.2.2.1, hs.2.2.2.1⟩
  · have hs := SSD1306_init_steps _ _ _ hlen h2
    exact ⟨hs.1, hs.2.1, hs.2.2.1, hs.2.2.2.1⟩

/-- Witness of C11: the cleared machine with the cursor at `(10, 10)`, on the
always-ready bus with the running timer. -/
theorem SSD1306_init_sequence_witness :
    (machineAt 10 10).SSD1306_Buffer.length = 1024 ∧ BusReady (machineAt 10 10).I2C1 ∧
    TimerTicks 1 (machineAt 10 10).TIM2 ∧
    ∃ m2, SSD1306_init 1 (machineAt 10 10) = some (0, m2) ∧
      m2.I2C1.wire = (machineAt 10 10).I2C1.wire ++
        (initTransactions ++ flushTransactions (List.replicate 1024 0x00)).flatMap
          Transaction.events ∧
      m2.SSD1306_Buffer = List.replicate 1024 0x00 ∧
      m2.SSD1306.xpos = 0 ∧ m2.SSD1306.ypos = 0 :=
  ⟨machine0_length, readyBus_ready, runningTimer_ticks 0,
    (SSD1306_init_sequence 0 (machineAt 10 10) machine0_length).1 readyBus_ready
      (runningTimer_ticks 0)⟩

theorem initOps_noAck (fuel : Nat) :
    ∀ op ∈ initOps (fuel + 1), ∀ h, NoAck h → ∃ h2, op h = some (1, h2) ∧ NoAck h2 := by
  intro op hop h hr
  obtain ⟨c, _, rfl⟩ := List.mem_map.mp hop
  exact SSD1306_write_noAck _ _ _ _ h hr

/-- C12: if at least one of the 28 command writes of `SSD1306_init` fails (`rs` are
their results, `h2` the peripheral after the last of them), `SSD1306_init` returns 1 with
the peripheral in state `h2`, so that nothing was put on the wire after the command
writes, and with framebuffer, cursor and sprite as before the call. For every bus
behaviour a run of `SSD1306_init` that returns, returns 0 or 1. -/
theorem SSD1306_init_failure (fuel : Nat) (m : Machine) (t : TIM_TypeDef) (rs : List Nat)
    (h2 : I2C_TypeDef)
    (hdelay : Delay_ms fuel 100 m.TIM2 = some t)
    (hrun : runOps (initOps fuel) m.I2C1 = some (rs, h2))
    (hfail : ∃ x ∈ rs, x ≠ 0) :
    rs.length = 28 ∧
    SSD1306_init fuel m = some (1, { m with I2C1 := h2, TIM2 := t }) ∧
    (∀ r, SSD1306_init fuel m = some r →
      r.1 = 1 ∧ r.2.SSD1306_Buffer = m.SSD1306_Buffer ∧ r.2.SSD1306 = m.SSD1306 ∧
      r.2.lastImg = m.lastImg ∧ r.2.I2C1 = h2) ∧
    (∀ fuel2 m0 r, SSD1306_init fuel2 m0 = some r → r.1 = 0 ∨ r.1 = 1) := by
  have hres := runOps_results _ (cmdOps_zero_or_one fuel initCommands) _ _ hrun
  have hsum := sum_eq_count_failures rs hres.2
  have hlen28 : rs.length = 28 := hres.1
  have hne : rs.sum % 256 ≠ 0 := by
    have h1 : rs.sum ≠ 0 := fun h0 => by
      obtain ⟨x, hx, hx0⟩ := hfail
      exact hx0 (hsum.2.2.mp h0 x hx)
    have := hsum.2.1
    omega
  have hinit : SSD1306_init fuel m = some (1, { m with I2C1 := h2, TIM2 := t }) := by
    unfold SSD1306_init
    rw [hdelay, init_fold_eq_runOps _ _ _ (Nat.zero_lt_succ 255)]
    unfold initOps at hrun
    rw [hrun]
    simp only [Option.map_some', Nat.zero_add]
    rw [if_pos hne]
  refine ⟨hlen28, hinit, ?_, ?_⟩
  · intro r hr
    rw [hinit] at hr
    rw [← Option.some.inj hr]
    exact ⟨rfl, rfl, rfl, rfl, rfl⟩
  · intro fuel2 m0 r hr
    unfold SSD1306_init at hr
    cases hd : Delay_ms fuel2 100 m0.TIM2 with
    | none => rw [hd] at hr; simp at hr
    | some t0 =>
      rw [hd] at hr
      simp only at hr
      cases hf : initCommands.foldlM (init_write fuel2) (0, m0.I2C1) with
      | none => rw [hf] at hr; simp at hr
      | some r0 =>
        rw [hf] at hr
        simp only at hr
        split_ifs at hr with h1
        · rw [← Option.some.inj hr]; exact Or.inr rfl
        · cases hu : SSD1306_update fuel2
              (SSD1306_fill BLACK { m0 with I2C1 := r0.2, TIM2 := t0 }) with
          | none => rw [hu] at hr; exact absurd hr (by simp)
          | some u =>
            rw [hu] at hr
            simp only at hr
            split_ifs at hr with h3
            · rw [← Option.some.inj hr]; exact Or.inr rfl
            · rw [← Option.some.inj hr]; exact Or.inl rfl

/-- Witness of C12: on the bus without a device all 28 command writes fail. -/
theorem SSD1306_init_failure_witness :
    ∃ t h2, Delay_ms 1 100 machineNoAck.TIM2 = some t ∧
      runOps (initOps 1) machineNoAck.I2C1 = some (List.replicate 28 1, h2) ∧
      (∃ x ∈ List.replicate 28 1, x ≠ 0) ∧
      SSD1306_init 1 machineNoAck = some (1, { machineNoAck with I2C1 := h2, TIM2 := t }) :=
  (Delay_ms_ticks 1 100 machineNoAck.TIM2 (runningTimer_ticks 0)).elim (fun t ht =>
    (runOps_noAck (initOps 1) (initOps_noAck 0) machineNoAck.I2C1 noAckBus_noAck).elim
      (fun h2 hh => ⟨t, h2, ht.1, hh.1, ⟨1, by decide, by decide⟩,
        (SSD1306_init_failure 1 machineNoAck t (List.replicate 28 1) h2 ht.1 hh.1
          ⟨1, by decide, by decide⟩).2.1⟩))

/-! ## Pixels drawn by a blit -/

/-- The test `(pixel << j) & 0x8000` looks at bit `15 - j` of the row, for `j <= 15`. -/
theorem row_test_iff (pixel j : Nat) :
    ((pixel <<< j) % 4294967296) &&& 0x8000 ≠ 0 ↔ (j ≤ 15 ∧ pixel.testBit (15 - j) = true) := by
  rw [show (0x8000 : Nat) = 2 ^ 15 from rfl, Nat.and_two_pow,
    show (4294967296 : Nat) = 2 ^ 32 from rfl, Nat.testBit_mod_two_pow,
    Nat.testBit_shiftLeft]
  by_cases hj : j ≤ 15
  · cases pixel.testBit (15 - j) <;> simp [hj]
  · simp [hj]

/-- The pixel `SSD1306_draw_pixel` addresses gets the colour, every other pixel of the
panel keeps its value. -/
theorem pixelAt_draw_pixel (x y : Nat) (c : SSD1306_COLOR) (m : Machine)
    (hlen : m.SSD1306_Buffer.length = 1024) (hx : x < 128) (hy : y < 64)
    (x2 y2 : Nat) (hx2 : x2 < 128) (_hy2 : y2 < 64) :
    pixelAt (SSD1306_draw_pixel x y c m).SSD1306_Buffer x2 y2
      = if x2 = x ∧ y2 = y then decide (c = WHITE) else pixelAt m.SSD1306_Buffer x2 y2 := by
  have hguard : ¬ (x ≥ SSD1306_WIDTH ∨ y ≥ SSD1306_HEIGHT) := by
    simp only [SSD1306_WIDTH, SSD1306_HEIGHT]; omega
  have hk : y % 8 < 8 := Nat.mod_lt _ (by norm_num)
  have hk2 : y2 % 8 < 8 := Nat.mod_lt _ (by norm_num)
  have hidx : x + y / 8 * 128 < m.SSD1306_Buffer.length := by omega
  unfold SSD1306_draw_pixel pixelAt
  rw [if_neg hguard]
  simp only [SSD1306_WIDTH]
  by_cases hsame : x2 = x ∧ y2 = y
  · obtain ⟨rfl, rfl⟩ := hsame
    cases c
    · simp only [reduceCtorEq, if_false, and_self, if_true, decide_False]
      rw [getD_set, if_pos ⟨rfl, hidx⟩, clear_bit_testBit _ _ _ hk hk]
      simp
    · simp only [if_true, and_self, decide_True]
      rw [getD_set, if_pos ⟨rfl, hidx⟩, set_bit_testBit _ _ _ hk]
      simp
  · rw [if_neg hsame]
    by_cases hi : x + y / 8 * 128 = x2 + y2 / 8 * 128
    · have hbit : y2 % 8 ≠ y % 8 := by
        intro hb
        apply hsame
        omega
      cases c
      · simp only [reduceCtorEq, if_false]
        rw [getD_set, if_pos ⟨hi, hidx⟩, clear_bit_testBit _ _ _ hk hk2, hi]
        simp [hbit]
      · simp only [if_true]
        rw [getD_set, if_pos ⟨hi, hidx⟩, set_bit_testBit _ _ _ hk2, hi]
        simp [hbit]
    · cases c
      · simp only [reduceCtorEq, if_false]
        rw [getD_set, if_neg (fun h => hi h.1)]
      · simp only [if_true]
        rw [getD_set, if_neg (fun h => hi h.1)]

/-- The pixels of one blitted row: column `j < width` of the row gets `color` when bit
`15 - j` of the row bitmap is set (`j <= 15`) and `!color` otherwise; all other pixels of
the panel keep their value. The row has to lie on the panel. -/
theorem pixelAt_blitRow (pixel x y width : Nat) (c : SSD1306_COLOR) (m : Machine)
    (hlen : m.SSD1306_Buffer.length = 1024) (hxw : x + width ≤ 128) (hy : y < 64)
    (x2 y2 : Nat) (hx2 : x2 < 128) (hy2 : y2 < 64) :
    pixelAt (blitRow pixel x y width c m).SSD1306_Buffer x2 y2
      = if y2 = y ∧ x ≤ x2 ∧ x2 < x + width then
          decide ((if x2 - x ≤ 15 ∧ pixel.testBit (15 - (x2 - x)) = true then c else c.not)
            = WHITE)
        else pixelAt m.SSD1306_Buffer x2 y2 := by
  unfold blitRow
  induction width with
  | zero =>
    rw [List.range_zero, List.foldl_nil, if_neg (by omega)]
  | succ w ih =>
    have ihw := ih (by omega)
    have hlenw := blitRow_length pixel x y w c m
    unfold blitRow at hlenw
    rw [hlen] at hlenw
    have key : ∀ M : Machine, M.SSD1306_Buffer.length = 1024 →
        pixelAt (if ((pixel <<< w) % 4294967296) &&& 0x8000 ≠ 0 then
            SSD1306_draw_pixel ((x + w) % 256) (y % 256) c M
          else SSD1306_draw_pixel ((x + w) % 256) (y % 256) c.not M).SSD1306_Buffer x2 y2
          = if x2 = x + w ∧ y2 = y then
              decide ((if w ≤ 15 ∧ pixel.testBit (15 - w) = true then c else c.not) = WHITE)
            else pixelAt M.SSD1306_Buffer x2 y2 := by
      intro M hM
      have hxm : (x + w) % 256 = x + w := Nat.mod_eq_of_lt (by omega)
      have hym : y % 256 = y := Nat.mod_eq_of_lt (by omega)
      rw [hxm, hym]
      by_cases htest : ((pixel <<< w) % 4294967296) &&& 0x8000 ≠ 0
      · rw [if_pos htest, pixelAt_draw_pixel _ _ _ _ hM (by omega) hy _ _ hx2 hy2,
          if_pos ((row_test_iff pixel w).mp htest)]
      · rw [if_neg htest, pixelAt_draw_pixel _ _ _ _ hM (by omega) hy _ _ hx2 hy2,
          if_neg (fun h => htest ((row_test_iff pixel w).mpr h))]
    rw [List.range_succ, List.foldl_append, List.foldl_cons, List.foldl_nil, key _ hlenw, ihw]
    by_cases hcol : x2 = x + w ∧ y2 = y
    · have hsub : x2 - x = w := by omega
      have hc1 : y2 = y ∧ x ≤ x2 ∧ x2 < x + (w + 1) := ⟨hcol.2, by omega, by omega⟩
      rw [if_pos hcol, if_pos hc1, hsub]
    · rw [if_neg hcol]
      by_cases hin : y2 = y ∧ x ≤ x2 ∧ x2 < x + w
      · have hc1 : y2 = y ∧ x ≤ x2 ∧ x2 < x + (w + 1) := ⟨hin.1, hin.2.1, by omega⟩
        rw [if_pos hin, if_pos hc1]
      · have hc1 : ¬ (y2 = y ∧ x ≤ x2 ∧ x2 < x + (w + 1)) := by omega
        rw [if_neg hin, if_neg hc1]

/-- The pixels of a blitted glyph: the pixel in row `i`, column `j` of the cell at the
cursor gets the colour that bit `15 - j` of row `i` of the glyph selects; all other pixels
of the panel keep their value. The cell has to lie on the panel. -/
theorem pixelAt_blitGlyph (ch : Nat) (Font : FontDef) (c : SSD1306_COLOR) (m : Machine)
    (hlen : m.SSD1306_Buffer.length = 1024)
    (hx : m.SSD1306.xpos + Font.FontWidth ≤ 128)
    (hy : m.SSD1306.ypos + Font.FontHeight ≤ 64)
    (x2 y2 : Nat) (hx2 : x2 < 128) (hy2 : y2 < 64) :
    pixelAt (blitGlyph ch Font c m).SSD1306_Buffer x2 y2
      = if m.SSD1306.xpos ≤ x2 ∧ x2 < m.SSD1306.xpos + Font.FontWidth ∧
           m.SSD1306.ypos ≤ y2 ∧ y2 < m.SSD1306.ypos + Font.FontHeight then
          decide ((if x2 - m.SSD1306.xpos ≤ 15 ∧
              (Font.data (((ch : Int) - 32) * Font.FontHeight
                  + ((y2 - m.SSD1306.ypos : Nat) : Int)) % 65536).testBit
                (15 - (x2 - m.SSD1306.xpos)) = true
            then c else c.not) = WHITE)
        else pixelAt m.SSD1306_Buffer x2 y2 := by
  have aux : ∀ n, m.SSD1306.ypos + n ≤ 64 →
      ((List.range n).foldl
        (fun (m : Machine) (i : Nat) =>
          blitRow (Font.data (((ch : Int) - 32) * Font.FontHeight + i) % 65536)
            m.SSD1306.xpos (m.SSD1306.ypos + i) Font.FontWidth c m) m).SSD1306 = m.SSD1306 ∧
      ((List.range n).foldl
        (fun (m : Machine) (i : Nat) =>
          blitRow (Font.data (((ch : Int) - 32) * Font.FontHeight + i) % 65536)
            m.SSD1306.xpos (m.SSD1306.ypos + i) Font.FontWidth c m) m).SSD1306_Buffer.length
        = 1024 ∧
      pixelAt ((List.range n).foldl
        (fun (m : Machine) (i : Nat) =>
          blitRow (Font.data (((ch : Int) - 32) * Font.FontHeight + i) % 65536)
            m.SSD1306.xpos (m.SSD1306.ypos + i) Font.FontWidth c m) m).SSD1306_Buffer x2 y2
        = if m.SSD1306.xpos ≤ x2 ∧ x2 < m.SSD1306.xpos + Font.FontWidth ∧
             m.SSD1306.ypos ≤ y2 ∧ y2 < m.SSD1306.ypos + n then
            decide ((if x2 - m.SSD1306.xpos ≤ 15 ∧
                (Font.data (((ch : Int) - 32) * Font.FontHeight
                    + ((y2 - m.SSD1306.ypos : Nat) : Int)) % 65536).testBit
                  (15 - (x2 - m.SSD1306.xpos)) = true
              then c else c.not) = WHITE)
          else pixelAt m.SSD1306_Buffer x2 y2 := by
    intro n
    induction n with
    | zero =>
      intro _
      rw [List.range_zero, List.foldl_nil]
      have hc : ¬ (m.SSD1306.xpos ≤ x2 ∧ x2 < m.SSD1306.xpos + Font.FontWidth ∧
          m.SSD1306.ypos ≤ y2 ∧ y2 < m.SSD1306.ypos + 0) := by omega
      exact ⟨rfl, hlen, by rw [if_neg hc]⟩
    | succ n ih =>
      intro hn
      obtain ⟨hS, hL, hP⟩ := ih (by omega)
      rw [List.range_succ, List.foldl_append, List.foldl_cons, List.foldl_nil, hS]
      refine ⟨by rw [blitRow_SSD1306, hS], by rw [blitRow_length, hL], ?_⟩
      rw [pixelAt_blitRow _ _ _ _ _ _ hL hx (by omega) _ _ hx2 hy2, hP]
      by_cases hrow : y2 = m.SSD1306.ypos + n ∧ m.SSD1306.xpos ≤ x2 ∧
          x2 < m.SSD1306.xpos + Font.FontWidth
      · have hc1 : m.SSD1306.xpos ≤ x2 ∧ x2 < m.SSD1306.xpos + Font.FontWidth ∧
            m.SSD1306.ypos ≤ y2 ∧ y2 < m.SSD1306.ypos + (n + 1) := by omega
        have hsub : y2 - m.SSD1306.ypos = n := by omega
        rw [if_pos hrow, if_pos hc1, hsub]
      · rw [if_neg hrow]
        by_cases hin : m.SSD1306.xpos ≤ x2 ∧ x2 < m.SSD1306.xpos + Font.FontWidth ∧
            m.SSD1306.ypos ≤ y2 ∧ y2 < m.SSD1306.ypos + n
        · have hc1 : m.SSD1306.xpos ≤ x2 ∧ x2 < m.SSD1306.xpos + Font.FontWidth ∧
              m.SSD1306.ypos ≤ y2 ∧ y2 < m.SSD1306.ypos + (n + 1) := by omega
          rw [if_pos hin, if_pos hc1]
        · have hc1 : ¬ (m.SSD1306.xpos ≤ x2 ∧ x2 < m.SSD1306.xpos + Font.FontWidth ∧
              m.SSD1306.ypos ≤ y2 ∧ y2 < m.SSD1306.ypos + (n + 1)) := by omega
          rw [if_neg hin, if_neg hc1]
  unfold blitGlyph
  exact (aux Font.FontHeight hy).2.2

/-- A check that hands the machine on without the wrap step has found room below. -/
theorem write_char_check_height (Font : FontDef) (wrap : Nat) (m m1 : Machine)
    (h : write_char_check Font wrap m = some m1)
    (hx : m.SSD1306.xpos + Font.FontWidth < 128) :
    m.SSD1306.ypos + Font.FontHeight < 64 := by
  unfold write_char_check at h
  simp only [SSD1306_WIDTH, SSD1306_HEIGHT] at h
  split_ifs at h <;> omega

/-- C15: glyph blit. When `SSD1306_write_char` succeeds without the wrap step at cursor
`(x, y)` on a 1024-byte framebuffer, with `FontWidth <= 16`, then for every row
`i < FontHeight` and column `j < FontWidth` the pixel `(x + j, y + i)` afterwards has the
colour `color` if bit `15 - j` of `Font.data[(ch - 32) * FontHeight + i]` is set and the
complement of `color` otherwise, whatever it was before, and every pixel of the panel
outside the cell `[x, x + FontWidth) x [y, y + FontHeight)` is unchanged. -/
theorem write_char_blits_glyph (ch : Nat) (Font : FontDef) (color : SSD1306_COLOR)
    (wrap : Nat) (m m1 : Machine)
    (hlen : m.SSD1306_Buffer.length = 1024)
    (hok : write_char_check Font wrap m = some m1)
    (hnowrap : m.SSD1306.xpos + Font.FontWidth < SSD1306_WIDTH)
    (hw : Font.FontWidth ≤ 16) :
    (SSD1306_write_char ch Font color wrap m).1 = ch ∧
    (∀ i j, i < Font.FontHeight → j < Font.FontWidth →
      pixelAt (SSD1306_write_char ch Font color wrap m).2.SSD1306_Buffer
          (m.SSD1306.xpos + j) (m.SSD1306.ypos + i)
        = decide ((if (Font.data (((ch : Int) - 32) * Font.FontHeight + (i : Int))).testBit
              (15 - j) = true
            then color else color.not) = WHITE)) ∧
    (∀ x2 y2, x2 < 128 → y2 < 64 →
      ¬ (m.SSD1306.xpos ≤ x2 ∧ x2 < m.SSD1306.xpos + Font.FontWidth ∧
         m.SSD1306.ypos ≤ y2 ∧ y2 < m.SSD1306.ypos + Font.FontHeight) →
      pixelAt (SSD1306_write_char ch Font color wrap m).2.SSD1306_Buffer x2 y2
        = pixelAt m.SSD1306_Buffer x2 y2) := by
  have hx : m.SSD1306.xpos + Font.FontWidth < 128 := hnowrap
  have hy := write_char_check_height Font wrap m m1 hok hx
  have hm1 := write_char_check_fits Font wrap m m1 hok hx
  subst hm1
  rw [write_char_of_some _ _ _ _ _ _ hok]
  refine ⟨rfl, ?_, ?_⟩
  · intro i j hi hj
    rw [pixelAt_blitGlyph ch Font color m1 hlen (by omega) (by omega) _ _ (by omega) (by omega)]
    have hc : m1.SSD1306.xpos ≤ m1.SSD1306.xpos + j ∧
        m1.SSD1306.xpos + j < m1.SSD1306.xpos + Font.FontWidth ∧
        m1.SSD1306.ypos ≤ m1.SSD1306.ypos + i ∧
        m1.SSD1306.ypos + i < m1.SSD1306.ypos + Font.FontHeight := by omega
    have hsx : m1.SSD1306.xpos + j - m1.SSD1306.xpos = j := by omega
    have hsy : m1.SSD1306.ypos + i - m1.SSD1306.ypos = i := by omega
    rw [if_pos hc, hsx, hsy, show (65536 : Nat) = 2 ^ 16 from rfl, Nat.testBit_mod_two_pow]
    have hj15 : j ≤ 15 := by omega
    have hb : 15 - j < 16 := by omega
    simp only [hj15, hb, true_and, decide_True, Bool.true_and]
  · intro x2 y2 hx2 hy2 hout
    rw [pixelAt_blitGlyph ch Font color m1 hlen (by omega) (by omega) _ _ hx2 hy2, if_neg hout]

/-- Witness of C15: character 65 of the all-set 7x10 font at the origin of the cleared
framebuffer; pixel `(3, 2)` of the cell is set. -/
theorem write_char_blits_glyph_witness :
    machine0.SSD1306_Buffer.length = 1024 ∧
    write_char_check solidFont 0 machine0 = some machine0 ∧
    machine0.SSD1306.xpos + solidFont.FontWidth < SSD1306_WIDTH ∧
    solidFont.FontWidth ≤ 16 ∧
    pixelAt (SSD1306_write_char 65 solidFont WHITE 0 machine0).2.SSD1306_Buffer
        (machine0.SSD1306.xpos + 3) (machine0.SSD1306.ypos + 2)
      = decide ((if (solidFont.data ((((65 : Nat) : Int) - 32) * solidFont.FontHeight
            + ((2 : Nat) : Int))).testBit (15 - 3) = true
          then WHITE else WHITE.not) = WHITE) :=
  ⟨machine0_length, rfl, by decide, by decide,
    (write_char_blits_glyph 65 solidFont WHITE 0 machine0 machine0 machine0_length rfl
      (by decide) (by decide)).2.1 2 3 (by decide) (by decide)⟩

/-! ## The wrap step -/

/-- C17 (the code at failing inputs): `SSD1306_writeImg` checks only the width of one
section. The two-section sprite at cursor `(111, 10)` passes the check and is drawn (`x`
ends at `111 + 2 * 16`), but the pixels of its second section from column 1 on lie at
`x >= 128`, outside the panel, where `SSD1306_draw_pixel` drops them. The 17-section strip
at the origin passes the check as well; its last section lies at `x = 256 .. 271`, the
coordinates are cut to `uint8_t`, and the section is drawn over columns `0 .. 15`: pixel
`(0, 0)`, which section 0 set (bit 15 of its row is set, colour `WHITE`), ends up clear. -/
theorem writeImg_sections_leave_panel :
    ¬ (SSD1306_WIDTH ≤ (machineAt 111 10).SSD1306.xpos + pairImg.imgWidth ∨
       SSD1306_HEIGHT ≤ (machineAt 111 10).SSD1306.ypos + pairImg.imgHeight) ∧
    (SSD1306_writeImg pairImg WHITE (machineAt 111 10)).SSD1306.xpos = 111 + 2 * 16 ∧
    pixelAt (SSD1306_writeImg pairImg WHITE (machineAt 111 10)).SSD1306_Buffer 127 10 = true ∧
    ¬ ((machineAt 111 10).SSD1306.xpos + 1 * pairImg.imgWidth + 1 < SSD1306_WIDTH) ∧
    ¬ (SSD1306_WIDTH ≤ machine0.SSD1306.xpos + stripImg.imgWidth ∨
       SSD1306_HEIGHT ≤ machine0.SSD1306.ypos + stripImg.imgHeight) ∧
    (SSD1306_writeImg stripImg WHITE machine0).SSD1306.xpos = 0 + 17 * 16 ∧
    (stripImg.data (0 + 0 * stripImg.imgHeight)).testBit (15 - 0) = true ∧
    pixelAt (SSD1306_writeImg stripImg WHITE machine0).SSD1306_Buffer 0 0 = false ∧
    pixelAt (SSD1306_writeImg { stripImg with imgSections := 16 } WHITE
      machine0).SSD1306_Buffer 0 0 = true := by
  set_option maxRecDepth 1000000 in
  decide

/-! ## Moving right, then left -/

theorem writeImg_ypos (Img : ImgDef) (c : SSD1306_COLOR) (m : Machine) :
    (SSD1306_writeImg Img c m).SSD1306.ypos = m.SSD1306.ypos := by
  unfold SSD1306_writeImg
  simp only
  split_ifs
  · rfl
  · rw [foldl_preserves (blitSection Img c) (fun m : Machine => m.SSD1306.ypos)
      (fun a b => by simp only [blitSection_SSD1306])]

/-- The `y` fields after `SSD1306_moveImageRight`: the cursor row stays and becomes the
row of the run origin. -/
theorem moveImageRight_ypos (fuel : Nat) (m mR : Machine)
    (h : SSD1306_moveImageRight fuel m = some mR) :
    mR.SSD1306.ypos = m.SSD1306.ypos ∧ mR.SSD1306.ypos_init = m.SSD1306.ypos := by
  unfold SSD1306_moveImageRight at h
  simp only [Option.map_eq_some'] at h
  obtain ⟨r, hr, rfl⟩ := h
  rw [(SSD1306_update_steps _ _ _ hr).2.1, writeImg_ypos, writeImg_ypos_init, fill_SSD1306]
  constructor <;> (split_ifs <;> rfl)

/-- The `y` fields after `SSD1306_moveImageLeft`. -/
theorem moveImageLeft_ypos (fuel : Nat) (m mL : Machine)
    (h : SSD1306_moveImageLeft fuel m = some mL) :
    mL.SSD1306.ypos = m.SSD1306.ypos ∧ mL.SSD1306.ypos_init = m.SSD1306.ypos := by
  unfold SSD1306_moveImageLeft at h
  simp only [Option.map_eq_some'] at h
  obtain ⟨r, hr, rfl⟩ := h
  rw [(SSD1306_update_steps _ _ _ hr).2.1, writeImg_ypos, writeImg_ypos_init, fill_SSD1306]
  constructor <;> (split_ifs <;> rfl)

/-- On an always-ready bus `SSD1306_moveImageRight` returns and leaves the bus ready. -/
theorem moveImageRight_ready_bus (fuel : Nat) (m : Machine) (hr : BusReady m.I2C1) :
    ∃ mR, SSD1306_moveImageRight (fuel + 1) m = some mR ∧ BusReady mR.I2C1 := by
  unfold SSD1306_moveImageRight
  simp only
  have hb : ∀ m4 : Machine, m4.I2C1 = m.I2C1 →
      ∃ mR, Option.map Prod.snd (SSD1306_update (fuel + 1) m4) = some mR ∧
        BusReady mR.I2C1 := by
    intro m4 h4
    obtain ⟨m2, h2⟩ := SSD1306_update_ready fuel m4 (by rw [h4]; exact hr)
    have hs := (SSD1306_update_steps _ _ _ h2).2.2.2.2 rfl
    exact ⟨m2, by rw [h2]; rfl, hs.ready (by rw [h4]; exact hr)⟩
  apply hb
  rw [writeImg_I2C1, fill_I2C1]
  split_ifs <;> rfl

/-- C18 as stated fails at `x_init = 0`: `SSD1306_moveImageRight` does not clamp
(`0 + 5 < 128`) and moves the origin to `x = 5`; `SSD1306_moveImageLeft` recomputes
`x = 0`, which its guard `xpos <= 0` replaces by `STEP = 5`, so `x_init` ends at 5
(always-ready bus, one poll of fuel). -/
theorem moveImage_left_after_right_at_zero :
    (machineAt 0 10).SSD1306.xpos_init + IMG_STEP_X < SSD1306_WIDTH ∧
    ∃ m1 m2, SSD1306_moveImageRight 1 (machineAt 0 10) = some m1 ∧
      SSD1306_moveImageLeft 1 m1 = some m2 ∧
      m1.SSD1306.xpos_init = 5 ∧ m2.SSD1306.xpos_init = 5 ∧
      m2.SSD1306.xpos_init ≠ (machineAt 0 10).SSD1306.xpos_init := by
  refine ⟨by decide, ?_⟩
  obtain ⟨m1, h1, r1⟩ := moveImageRight_ready_bus 0 (machineAt 0 10) readyBus_ready
  obtain ⟨m2, h2⟩ := moveImageLeft_ready 0 m1 r1
  have hx1 : m1.SSD1306.xpos_init = 5 := by
    rw [moveImageRight_xpos_init _ _ _ h1]; decide
  have hx2 : m2.SSD1306.xpos_init = 5 := by
    rw [moveImageLeft_xpos_init _ _ _ h2, hx1]; decide
  exact ⟨m1, m2, h1, h2, hx1, hx2, by rw [hx2]; decide⟩

/-- C18, amended: for every state with `1 <= x_init` in which `SSD1306_moveImageRight`
does not clamp (`x_init + STEP < W`), calling `SSD1306_moveImageRight` and then
`SSD1306_moveImageLeft` leaves `x_init` equal to its original value; `y_init` ends at
the cursor row `y`, hence unchanged given `y = y_init` before the calls. On an
always-ready bus with at least one poll of fuel both calls return. -/
theorem moveImage_left_undoes_right (fuel : Nat) (m : Machine) :
    (∀ m1 m2, SSD1306_moveImageRight fuel m = some m1 →
      SSD1306_moveImageLeft fuel m1 = some m2 →
      1 ≤ m.SSD1306.xpos_init → m.SSD1306.xpos_init + IMG_STEP_X < SSD1306_WIDTH →
      m2.SSD1306.xpos_init = m.SSD1306.xpos_init ∧
      (m.SSD1306.ypos = m.SSD1306.ypos_init →
        m2.SSD1306.ypos_init = m.SSD1306.ypos_init)) ∧
    (BusReady m.I2C1 →
      ∃ m1 m2, SSD1306_moveImageRight (fuel + 1) m = some m1 ∧
        SSD1306_moveImageLeft (fuel + 1) m1 = some m2) := by
  refine ⟨fun m1 m2 h1 h2 hx1 hx122 => ⟨?_, fun hy => ?_⟩, fun hr => ?_⟩
  · have e1 := moveImageRight_xpos_init _ _ _ h1
    have e2 := moveImageLeft_xpos_init _ _ _ h2
    rw [e2, e1]
    simp only [SSD1306_WIDTH, IMG_STEP_X] at hx122 ⊢
    split_ifs <;> omega
  · rw [(moveImageLeft_ypos _ _ _ h2).2, (moveImageRight_ypos _ _ _ h1).1, hy]
  · obtain ⟨m1, h1, r1⟩ := moveImageRight_ready_bus fuel m hr
    obtain ⟨m2, h2⟩ := moveImageLeft_ready fuel m1 r1
    exact ⟨m1, m2, h1, h2⟩

/-- Witness of the amended C18: the run origin at `(120, 10)` on the always-ready bus. -/
theorem moveImage_left_undoes_right_witness :
    BusReady (machineAt 120 10).I2C1 ∧
    1 ≤ (machineAt 120 10).SSD1306.xpos_init ∧
    (machineAt 120 10).SSD1306.xpos_init + IMG_STEP_X < SSD1306_WIDTH ∧
    ∃ m1 m2, SSD1306_moveImageRight 1 (machineAt 120 10) = some m1 ∧
      SSD1306_moveImageLeft 1 m1 = some m2 ∧
      m2.SSD1306.xpos_init = (machineAt 120 10).SSD1306.xpos_init :=
  ⟨readyBus_ready, by decide, by decide,
    ((moveImage_left_undoes_right 0 (machineAt 120 10)).2 readyBus_ready).elim
      (fun m1 h1 => h1.elim (fun m2 h2 => ⟨m1, m2, h2.1, h2.2,
        ((moveImage_left_undoes_right 1 (machineAt 120 10)).1 m1 m2 h2.1 h2.2
          (by decide) (by decide)).1⟩))⟩

end SSD1306
